import Mathlib

/-! # Registry rewriting webhook: image references and the Pod mutation policy

A shallow embedding of

* `internal/registry/rewriter.go` (`RewriteImage`), and
* `internal/webhook/v1/pod_webhook.go` (`PodCustomDefaulter.Default`),

together with the few functions of Go's `strings`, `errors` and `fmt` packages
that the two files call.

Conventions of the embedding:

* a Go `string` is the list of its characters (`Str`); the code only compares with
  `""`, concatenates, and searches for the one-byte ASCII separators `/ . : @`, which
  never occur inside a multi-byte UTF-8 sequence, so searching characters and
  searching bytes agree;
* a Go function returning `(string, error)` returns a pair `Str × Option GoError`
  (`none` is the `nil` error);
* a run-time panic (an index out of range) is the outer `none` of an `Option`;
* in-place mutation is explicit state passing: the mutated object is part of the result;
* the process-wide logger is an explicit list of log entries, oldest first.
-/

namespace MutatingRegistryHook

/-- A Go string: the list of its characters. -/
abbrev Str := List Char

/-- A Go `error` value; only its message is observable here. -/
structure GoError where
  msg : Str
deriving DecidableEq, Repr

namespace errors

/-- Go `errors.New(text)`. -/
def New (text : Str) : GoError := ⟨text⟩

end errors

namespace strings

/-- Go `strings.Index(s, substr)`: the index of the first occurrence of `substr`
in `s`; `none` stands for Go's `-1`. -/
def Index : Str → Str → Option Nat
  | [], substr => if substr.isPrefixOf [] then some 0 else none
  | c :: s, substr =>
    if substr.isPrefixOf (c :: s) then some 0 else (Index s substr).map (fun m => m + 1)

/-- Go `strings.Contains(s, substr)`, which is `Index(s, substr) >= 0`. -/
def Contains (s substr : Str) : Bool := (Index s substr).isSome

/-- Go `strings.explode(s, n)` for `n > 0`: one string per character, at most `n`
strings, the last one holding the unsplit remainder. -/
def explode : Str → Nat → List Str
  | [], _ => []
  | _ :: _, 0 => []
  | c :: s, 1 => [c :: s]
  | c :: s, n + 2 => [c] :: explode s (n + 1)

/-- The loop of Go `strings.genSplit` with `sepSave = 0`: `k` is the number of
separators that may still be consumed (`n - 1 - i` in the source). -/
def genSplitLoop (sep : Str) : Nat → Str → List Str
  | 0, s => [s]
  | k + 1, s =>
    match Index s sep with
    | none => [s]
    | some m => s.take m :: genSplitLoop sep k (s.drop (m + sep.length))

/-- Go `strings.SplitN(s, sep, n)` for `n ≥ 0`: `n = 0` gives no substrings, an empty
separator explodes `s`, and otherwise `s` is cut at the first `n - 1` separators
(`n` is first capped at `len(s) + 1`, a cap that changes nothing for a non-empty
`s` and `n = 2`, the only call made here). -/
def SplitN (s sep : Str) (n : Nat) : List Str :=
  if n = 0 then []
  else if sep = [] then explode s n
  else genSplitLoop sep (min n (s.length + 1) - 1) s

end strings

namespace fmt

/-- Go `fmt.Sprintf("%s/%s", a, b)`. -/
def Sprintf_s_slash_s (a b : Str) : Str := a ++ ['/'] ++ b

end fmt

namespace registry

/-- The registry-stripping step of `RewriteImage` (rewriter.go, lines 20-30): the
value of the local `image` after the first `if`; `none` is an index-out-of-range
panic at `parts[0]` or `parts[1]`. -/
def stripRegistry (image : Str) : Option Str :=
  if strings.Contains image ['/'] then
    let parts := strings.SplitN image ['/'] 2
    match parts[0]? with
    | none => none
    | some part0 =>
      if strings.Contains part0 ['.'] || strings.Contains part0 [':'] then
        -- First part is a registry, strip it
        parts[1]?
      else
        some image
  else
    some image

/-- The tag-defaulting step of `RewriteImage` (rewriter.go, lines 32-35). -/
def defaultTag (image : Str) : Str :=
  if !strings.Contains image [':'] && !strings.Contains image ['@'] then
    image ++ ":latest".toList
  else
    image

/-- Go `registry.RewriteImage(originalImage, targetRegistry)`. The outer `none` is a
run-time panic; otherwise the pair is the returned `(string, error)`. -/
def RewriteImage (originalImage targetRegistry : Str) : Option (Str × Option GoError) :=
  if originalImage = [] then
    some ([], some (errors.New "original image cannot be empty".toList))
  else if targetRegistry = [] then
    some ([], some (errors.New "target registry cannot be empty".toList))
  else
    match stripRegistry originalImage with
    | none => none
    | some image => some (fmt.Sprintf_s_slash_s targetRegistry (defaultTag image), none)

end registry

namespace corev1

/-- The fields of `corev1.Container` that the webhook reads or writes. An
`EphemeralContainer` is modelled by the same structure: its `Name` and `Image` are the
promoted fields of the embedded `EphemeralContainerCommon`. -/
structure Container where
  Name : Str
  Image : Str
deriving DecidableEq, Repr

/-- The three container collections of `corev1.PodSpec`. -/
structure PodSpec where
  Containers : List Container
  InitContainers : List Container
  EphemeralContainers : List Container
deriving DecidableEq, Repr

/-- The object metadata (`Name`, `Namespace`) and the spec of `corev1.Pod`. -/
structure Pod where
  Name : Str
  Namespace : Str
  Spec : PodSpec
deriving DecidableEq, Repr

/-- The metadata of `corev1.Namespace` that the webhook reads. A Go
`map[string]string` is an association list; the index expression `m[k]` is
`List.lookup k m` (a `nil` map is the empty list). -/
structure Namespace where
  Labels : List (Str × Str)
  Annotations : List (Str × Str)
deriving DecidableEq, Repr

end corev1

/-- A `runtime.Object` handed to the webhook: a Pod, or an object of some other
dynamic type (named by what `%T` prints for it). -/
inductive RuntimeObject where
  | pod (p : corev1.Pod)
  | other (typeName : Str)
deriving DecidableEq, Repr

/-- Severity of an entry of the `podlog` logger. -/
inductive LogLevel where
  | info
  | error
deriving DecidableEq, Repr

/-- One call of `podlog.Info(msg, keysAndValues...)` or
`podlog.Error(err, msg, keysAndValues...)`. -/
structure LogEntry where
  level : LogLevel
  err : Option GoError
  msg : Str
  keysAndValues : List (Str × Str)
deriving DecidableEq, Repr

namespace podlog

/-- Go `podlog.Info(msg, keysAndValues...)`. -/
def Info (msg : Str) (keysAndValues : List (Str × Str)) : LogEntry :=
  ⟨LogLevel.info, none, msg, keysAndValues⟩

/-- Go `podlog.Error(err, msg, keysAndValues...)`. -/
def Error (err : GoError) (msg : Str) (keysAndValues : List (Str × Str)) : LogEntry :=
  ⟨LogLevel.error, some err, msg, keysAndValues⟩

end podlog

/-- The only method of `client.Client` the webhook calls: `Get` of a Namespace by
name, which either fills in the namespace or returns an error (not found, transient
I/O, cancelled context, ...). -/
structure Client where
  Get : Str → Except GoError corev1.Namespace

/-- Go `PodCustomDefaulter`. -/
structure PodCustomDefaulter where
  Client : Client

/-- The constants of pod_webhook.go, lines 40-44. -/
def LabelRegistryRewrite : Str := "registry-rewrite".toList

def LabelValueEnabled : Str := "enabled".toList

def AnnotationTargetRegistry : Str := "image-rewriter.example.com/target-registry".toList

/-- The state a container loop of `Default` works on: the collection it mutates in
place and the log written so far. -/
structure LoopState where
  containers : List corev1.Container
  log : List LogEntry
deriving DecidableEq, Repr

/-- One of the three `for i := range ...` loops of `Default` (pod_webhook.go, lines
100-127), which differ only in the collection and in the log message `msg`.
`rewriteLoop msg targetRegistry k i st` runs the `k` iterations `i, i+1, ...`; the
outer `none` is a panic (index out of range, or a panic of `RewriteImage`). -/
def rewriteLoop (msg targetRegistry : Str) : Nat → Nat → LoopState → Option LoopState
  | 0, _, st => some st
  | k + 1, i, st =>
    match st.containers[i]? with
    | none => none
    | some c =>
      match registry.RewriteImage c.Image targetRegistry with
      | none => none
      | some (_, some err) =>
        -- fail-safe: skip this container
        rewriteLoop msg targetRegistry k (i + 1)
          { st with log := st.log ++ [podlog.Error err msg [("original".toList, c.Image)]] }
      | some (rewritten, none) =>
        rewriteLoop msg targetRegistry k (i + 1)
          { st with containers := st.containers.set i { c with Image := rewritten } }

/-- What a call of `Default` leaves behind: the admitted object after the in-place
mutation, the returned `error`, and the log entries written. -/
structure DefaultResult where
  obj : RuntimeObject
  err : Option GoError
  log : List LogEntry
deriving DecidableEq, Repr

/-- The part of `Default` after the three gates (pod_webhook.go, lines 99-129): the
three loops, in the order Containers, InitContainers, EphemeralContainers. -/
def rewriteAll (targetRegistry : Str) (pod : corev1.Pod) (log : List LogEntry) :
    Option DefaultResult :=
  match rewriteLoop "failed to rewrite image".toList targetRegistry
      pod.Spec.Containers.length 0 ⟨pod.Spec.Containers, log⟩ with
  | none => none
  | some st1 =>
    match rewriteLoop "failed to rewrite init container image".toList targetRegistry
        pod.Spec.InitContainers.length 0 ⟨pod.Spec.InitContainers, st1.log⟩ with
    | none => none
    | some st2 =>
      match rewriteLoop "failed to rewrite ephemeral container image".toList targetRegistry
          pod.Spec.EphemeralContainers.length 0 ⟨pod.Spec.EphemeralContainers, st2.log⟩ with
      | none => none
      | some st3 =>
        some ⟨RuntimeObject.pod { pod with Spec :=
                ⟨st1.containers, st2.containers, st3.containers⟩ },
              none, st3.log⟩

/-- Go `(d *PodCustomDefaulter) Default(ctx, obj)` (pod_webhook.go, lines 72-130). The
outer `none` is a run-time panic. -/
def PodCustomDefaulter.Default (d : PodCustomDefaulter) (obj : RuntimeObject) :
    Option DefaultResult :=
  match obj with
  | RuntimeObject.other typeName =>
    some ⟨obj, some ⟨"expected an Pod object but got ".toList ++ typeName⟩, []⟩
  | RuntimeObject.pod pod =>
    let log0 := [podlog.Info "Defaulting for Pod".toList [("name".toList, pod.Name)]]
    -- Get the namespace
    match d.Client.Get pod.Namespace with
    | Except.error err =>
      -- fail-safe: don't block pod creation
      some ⟨obj, none,
        log0 ++ [podlog.Error err "failed to get namespace".toList
                  [("namespace".toList, pod.Namespace)]]⟩
    | Except.ok ns =>
      -- Check for label
      if (ns.Labels.lookup LabelRegistryRewrite).getD [] ≠ LabelValueEnabled then
        some ⟨obj, none, log0⟩
      else
        -- Check for annotation
        let ok := (ns.Annotations.lookup AnnotationTargetRegistry).isSome
        let targetRegistry := (ns.Annotations.lookup AnnotationTargetRegistry).getD []
        if !ok || targetRegistry = [] then
          some ⟨obj, none,
            log0 ++ [podlog.Info "skipping pod - missing target registry annotation".toList
                      [("namespace".toList, pod.Namespace)]]⟩
        else
          -- Rewrite images for all container types
          rewriteAll targetRegistry pod log0

/-! ## Closed forms of one loop iteration, used to state what the loops compute -/

/-- The container an iteration of a loop of `Default` leaves at its index: the image
is replaced when `RewriteImage` returns a `nil` error, and the container is kept
otherwise. -/
def rewriteOrKeep (targetRegistry : Str) (c : corev1.Container) : corev1.Container :=
  match registry.RewriteImage c.Image targetRegistry with
  | some (rewritten, none) => { c with Image := rewritten }
  | _ => c

/-- The log entry an iteration of a loop of `Default` writes, if any. -/
def rewriteFailureLog (msg targetRegistry : Str) (c : corev1.Container) : Option LogEntry :=
  match registry.RewriteImage c.Image targetRegistry with
  | some (_, some err) => some (podlog.Error err msg [("original".toList, c.Image)])
  | _ => none

/-- The Pod the three loops of `Default` leave behind: every collection is mapped
entry by entry, nothing else changes. -/
def rewrittenPod (targetRegistry : Str) (pod : corev1.Pod) : corev1.Pod :=
  { pod with Spec :=
      ⟨pod.Spec.Containers.map (rewriteOrKeep targetRegistry),
       pod.Spec.InitContainers.map (rewriteOrKeep targetRegistry),
       pod.Spec.EphemeralContainers.map (rewriteOrKeep targetRegistry)⟩ }

/-! ## Concrete scenarios used below -/

/-- A namespace store holding the single namespace `name`. -/
def singleNamespaceClient (name : Str) (ns : corev1.Namespace) : Client :=
  ⟨fun n => if n = name then Except.ok ns
            else Except.error ⟨"namespace not found: ".toList ++ n⟩⟩

/-- The namespace of `TestPodDefaulter_HandlesErrorsGracefully`. -/
def enabledNamespace : corev1.Namespace :=
  ⟨[(LabelRegistryRewrite, LabelValueEnabled)],
   [(AnnotationTargetRegistry, "myregistry.io".toList)]⟩

/-- A namespace that carries the annotation but whose label is not `enabled`. -/
def disabledNamespace : corev1.Namespace :=
  ⟨[(LabelRegistryRewrite, "disabled".toList)],
   [(AnnotationTargetRegistry, "myregistry.io".toList)]⟩

/-- A namespace labelled `registry-rewrite=enabled` without the annotation. -/
def unannotatedNamespace : corev1.Namespace :=
  ⟨[(LabelRegistryRewrite, LabelValueEnabled)], []⟩

/-- A defaulter whose client stores `ns` under the name `test-namespace`. -/
def testDefaulter (ns : corev1.Namespace) : PodCustomDefaulter :=
  ⟨singleNamespaceClient "test-namespace".toList ns⟩

/-- A defaulter whose client does not store the namespace of `mixedPod`. -/
def strayDefaulter : PodCustomDefaulter :=
  ⟨singleNamespaceClient "another-namespace".toList enabledNamespace⟩

/-- A Pod with valid and empty images spread over the three collections. -/
def mixedPod : corev1.Pod :=
  { Name := "test-pod".toList
    Namespace := "test-namespace".toList
    Spec :=
      { Containers := [⟨"good-container".toList, "nginx:1.21".toList⟩,
                       ⟨"bad-container".toList, []⟩,
                       ⟨"another-good-container".toList, "redis:7.0".toList⟩]
        InitContainers := [⟨"bad-init".toList, []⟩,
                           ⟨"init".toList, "docker.io/library/busybox".toList⟩]
        EphemeralContainers := [⟨"debugger".toList, "localhost:5000/debug:v1".toList⟩] } }

/-! ## Go's `strings` functions on a one-character separator -/

theorem strings.Index_single_nil (c : Char) : strings.Index [] [c] = none := by
  simp [strings.Index]

theorem strings.Index_single_cons (c d : Char) (s : Str) :
    strings.Index (d :: s) [c]
      = if c = d then some 0 else (strings.Index s [c]).map (fun m => m + 1) := by
  simp [strings.Index, List.isPrefixOf_cons₂]

/-- `strings.Contains s "c"` holds exactly when the character occurs in `s`. -/
theorem strings.Contains_single (c : Char) (s : Str) :
    strings.Contains s [c] = true ↔ c ∈ s := by
  induction s with
  | nil => simp [strings.Contains, strings.Index_single_nil]
  | cons d s ih =>
    unfold strings.Contains at ih ⊢
    rw [strings.Index_single_cons]
    by_cases h : c = d
    · simp [h]
    · simp [h, ih]

theorem strings.Contains_single_false (c : Char) (s : Str) :
    strings.Contains s [c] = false ↔ c ∉ s := by
  rw [← strings.Contains_single, Bool.not_eq_true]

/-- The first occurrence of a character is found where it stands. -/
theorem strings.Index_single_append (c : Char) (pre post : Str) (h : c ∉ pre) :
    strings.Index (pre ++ c :: post) [c] = some pre.length := by
  induction pre with
  | nil => simp [strings.Index_single_cons]
  | cons d pre ih =>
    have hd : c ≠ d := fun e => h (by simp [e])
    have hp : c ∉ pre := fun e => h (by simp [e])
    simp [strings.Index_single_cons, hd, ih hp]

/-- Cutting once at a one-character separator yields the text before its first
occurrence and the text after it. -/
theorem strings.SplitN_two_single (c : Char) (pre post : Str) (h : c ∉ pre) :
    strings.SplitN (pre ++ c :: post) [c] 2 = [pre, post] := by
  have hmin : min 2 ((pre ++ c :: post).length + 1) - 1 = 1 := by
    simp only [List.length_append, List.length_cons]
    omega
  unfold strings.SplitN
  rw [hmin]
  simp [strings.genSplitLoop, strings.Index_single_append c pre post h]

/-! ## The two steps of `RewriteImage` -/

theorem registry.stripRegistry_of_no_slash (image : Str) (h : '/' ∉ image) :
    registry.stripRegistry image = some image := by
  have hc : strings.Contains image ['/'] = false := (strings.Contains_single_false _ _).2 h
  simp [registry.stripRegistry, hc]

theorem registry.stripRegistry_of_split (seg rest : Str) (h : '/' ∉ seg) :
    registry.stripRegistry (seg ++ '/' :: rest)
      = some (if '.' ∈ seg ∨ ':' ∈ seg then rest else seg ++ '/' :: rest) := by
  have hc : strings.Contains (seg ++ '/' :: rest) ['/'] = true :=
    (strings.Contains_single _ _).2 (by simp)
  simp only [registry.stripRegistry, hc, if_true, strings.SplitN_two_single '/' seg rest h]
  by_cases hd : '.' ∈ seg
  · have := (strings.Contains_single '.' seg).2 hd
    simp [this, hd]
  · have h1 := (strings.Contains_single_false '.' seg).2 hd
    by_cases hk : ':' ∈ seg
    · have := (strings.Contains_single ':' seg).2 hk
      simp [this, hk]
    · have := (strings.Contains_single_false ':' seg).2 hk
      simp [this, h1, hd, hk]

theorem registry.defaultTag_eq (image : Str) :
    registry.defaultTag image
      = if ':' ∈ image ∨ '@' ∈ image then image else image ++ ":latest".toList := by
  unfold registry.defaultTag
  by_cases hk : ':' ∈ image
  · simp [(strings.Contains_single ':' image).2 hk, hk]
  · by_cases ha : '@' ∈ image
    · simp [(strings.Contains_single '@' image).2 ha, ha]
    · simp [(strings.Contains_single_false ':' image).2 hk,
        (strings.Contains_single_false '@' image).2 ha, hk, ha]

/-- The text before the first `/` and the text after it. -/
theorem Str.split_at_first (c : Char) (s : Str) (h : c ∈ s) :
    ∃ pre post, s = pre ++ c :: post ∧ c ∉ pre :=
  List.eq_append_cons_of_mem h

/-- `stripRegistry` never panics and returns a suffix of its argument. -/
theorem registry.stripRegistry_suffix (image : Str) :
    ∃ image1, registry.stripRegistry image = some image1 ∧ image1 <:+ image := by
  by_cases h : '/' ∈ image
  · obtain ⟨pre, post, rfl, hpre⟩ := Str.split_at_first '/' image h
    rw [registry.stripRegistry_of_split pre post hpre]
    by_cases hd : '.' ∈ pre ∨ ':' ∈ pre
    · refine ⟨post, by simp [hd], ?_⟩
      exact ⟨pre ++ ['/'], by simp⟩
    · exact ⟨pre ++ '/' :: post, by simp [hd], List.suffix_refl _⟩
  · exact ⟨image, registry.stripRegistry_of_no_slash image h, List.suffix_refl _⟩

/-- On non-empty arguments `RewriteImage` is the prefixing of the defaulted, stripped
image. -/
theorem registry.RewriteImage_of_strip (originalImage targetRegistry image : Str)
    (ho : originalImage ≠ []) (ht : targetRegistry ≠ [])
    (hs : registry.stripRegistry originalImage = some image) :
    registry.RewriteImage originalImage targetRegistry
      = some (targetRegistry ++ ['/'] ++ registry.defaultTag image, none) := by
  simp [registry.RewriteImage, ho, ht, hs, fmt.Sprintf_s_slash_s]

/-- `RewriteImage` never panics: it returns either a string with a `nil` error (both
arguments non-empty) or the empty string with an error. -/
theorem registry.RewriteImage_cases (originalImage targetRegistry : Str) :
    (originalImage ≠ [] ∧ targetRegistry ≠ [] ∧
        ∃ r, registry.RewriteImage originalImage targetRegistry = some (r, none)) ∨
    ((originalImage = [] ∨ targetRegistry = []) ∧
        ∃ e, registry.RewriteImage originalImage targetRegistry = some ([], some e)) := by
  by_cases ho : originalImage = []
  · exact Or.inr ⟨Or.inl ho, errors.New "original image cannot be empty".toList,
      by simp [registry.RewriteImage, ho]⟩
  · by_cases ht : targetRegistry = []
    · exact Or.inr ⟨Or.inr ht, errors.New "target registry cannot be empty".toList,
        by simp [registry.RewriteImage, ho, ht]⟩
    · obtain ⟨image, hs, _⟩ := registry.stripRegistry_suffix originalImage
      exact Or.inl ⟨ho, ht, _, registry.RewriteImage_of_strip _ _ _ ho ht hs⟩

/-! ## The container loops of `Default` -/

/-- A loop started at index `pre.length`, with exactly the containers `post` still to
visit, rewrites `post` entry by entry, leaves `pre` alone and appends one log entry per
failure. -/
theorem rewriteLoop_append (msg targetRegistry : Str) (post : List corev1.Container) :
    ∀ (pre : List corev1.Container) (log : List LogEntry),
      rewriteLoop msg targetRegistry post.length pre.length ⟨pre ++ post, log⟩
        = some ⟨pre ++ post.map (rewriteOrKeep targetRegistry),
                log ++ post.filterMap (rewriteFailureLog msg targetRegistry)⟩ := by
  induction post with
  | nil => intro pre log; simp [rewriteLoop]
  | cons c post ih =>
    intro pre log
    have hget : (pre ++ c :: post)[pre.length]? = some c := by
      rw [List.getElem?_append_right (Nat.le_refl _)]
      simp
    have hnext : ∀ (c1 : corev1.Container) (log1 : List LogEntry),
        rewriteLoop msg targetRegistry post.length (pre.length + 1) ⟨pre ++ c1 :: post, log1⟩
          = some ⟨(pre ++ [c1]) ++ post.map (rewriteOrKeep targetRegistry),
                  log1 ++ post.filterMap (rewriteFailureLog msg targetRegistry)⟩ := by
      intro c1 log1
      have := ih (pre ++ [c1]) log1
      simpa using this
    rcases registry.RewriteImage_cases c.Image targetRegistry with
      ⟨_, _, r, hr⟩ | ⟨_, e, he⟩
    · simp only [rewriteLoop, List.length_cons, hget, hr]
      have hset : (pre ++ c :: post).set pre.length { c with Image := r }
          = pre ++ { c with Image := r } :: post := by simp
      rw [hset, hnext]
      simp [rewriteOrKeep, rewriteFailureLog, hr]
    · simp only [rewriteLoop, List.length_cons, hget, he]
      rw [hnext]
      simp [rewriteOrKeep, rewriteFailureLog, he]

/-- A whole loop over a collection. -/
theorem rewriteLoop_eq (msg targetRegistry : Str) (cs : List corev1.Container)
    (log : List LogEntry) :
    rewriteLoop msg targetRegistry cs.length 0 ⟨cs, log⟩
      = some ⟨cs.map (rewriteOrKeep targetRegistry),
              log ++ cs.filterMap (rewriteFailureLog msg targetRegistry)⟩ := by
  simpa using rewriteLoop_append msg targetRegistry cs [] log

/-- The three loops never panic, never return an error and map every collection
entry by entry. -/
theorem rewriteAll_eq (targetRegistry : Str) (pod : corev1.Pod) (log : List LogEntry) :
    rewriteAll targetRegistry pod log
      = some ⟨RuntimeObject.pod { pod with Spec :=
                ⟨pod.Spec.Containers.map (rewriteOrKeep targetRegistry),
                 pod.Spec.InitContainers.map (rewriteOrKeep targetRegistry),
                 pod.Spec.EphemeralContainers.map (rewriteOrKeep targetRegistry)⟩ },
              none,
              log
                ++ pod.Spec.Containers.filterMap
                    (rewriteFailureLog "failed to rewrite image".toList targetRegistry)
                ++ pod.Spec.InitContainers.filterMap
                    (rewriteFailureLog "failed to rewrite init container image".toList
                      targetRegistry)
                ++ pod.Spec.EphemeralContainers.filterMap
                    (rewriteFailureLog "failed to rewrite ephemeral container image".toList
                      targetRegistry)⟩ := by
  simp only [rewriteAll, rewriteLoop_eq]

/-! ## The gates of `Default` -/

/-- A failed namespace lookup: the Pod is returned as it came, with two log entries. -/
theorem Default_of_lookup_error (d : PodCustomDefaulter) (pod : corev1.Pod) (e : GoError)
    (hget : d.Client.Get pod.Namespace = Except.error e) :
    d.Default (RuntimeObject.pod pod)
      = some ⟨RuntimeObject.pod pod, none,
          [podlog.Info "Defaulting for Pod".toList [("name".toList, pod.Name)],
           podlog.Error e "failed to get namespace".toList
             [("namespace".toList, pod.Namespace)]]⟩ := by
  simp [PodCustomDefaulter.Default, hget]

/-- The label gate. -/
theorem Default_of_not_enabled (d : PodCustomDefaulter) (pod : corev1.Pod)
    (ns : corev1.Namespace) (hget : d.Client.Get pod.Namespace = Except.ok ns)
    (hlabel : ns.Labels.lookup LabelRegistryRewrite ≠ some LabelValueEnabled) :
    d.Default (RuntimeObject.pod pod)
      = some ⟨RuntimeObject.pod pod, none,
          [podlog.Info "Defaulting for Pod".toList [("name".toList, pod.Name)]]⟩ := by
  have hne : (ns.Labels.lookup LabelRegistryRewrite).getD [] ≠ LabelValueEnabled := by
    cases hl : ns.Labels.lookup LabelRegistryRewrite with
    | none => simp [LabelValueEnabled]
    | some v =>
      intro hv
      apply hlabel
      rw [hl]
      simpa using hv
  simp [PodCustomDefaulter.Default, hget, hne]

/-- The annotation gate. -/
theorem Default_of_no_target (d : PodCustomDefaulter) (pod : corev1.Pod)
    (ns : corev1.Namespace) (hget : d.Client.Get pod.Namespace = Except.ok ns)
    (hlabel : ns.Labels.lookup LabelRegistryRewrite = some LabelValueEnabled)
    (hann : ns.Annotations.lookup AnnotationTargetRegistry = none ∨
            ns.Annotations.lookup AnnotationTargetRegistry = some []) :
    d.Default (RuntimeObject.pod pod)
      = some ⟨RuntimeObject.pod pod, none,
          [podlog.Info "Defaulting for Pod".toList [("name".toList, pod.Name)],
           podlog.Info "skipping pod - missing target registry annotation".toList
             [("namespace".toList, pod.Namespace)]]⟩ := by
  rcases hann with h | h <;> simp [PodCustomDefaulter.Default, hget, hlabel, h]

/-- Past the three gates `Default` is the three loops. -/
theorem Default_of_enabled (d : PodCustomDefaulter) (pod : corev1.Pod)
    (ns : corev1.Namespace) (targetRegistry : Str)
    (hget : d.Client.Get pod.Namespace = Except.ok ns)
    (hlabel : ns.Labels.lookup LabelRegistryRewrite = some LabelValueEnabled)
    (hann : ns.Annotations.lookup AnnotationTargetRegistry = some targetRegistry)
    (hT : targetRegistry ≠ []) :
    d.Default (RuntimeObject.pod pod)
      = rewriteAll targetRegistry pod
          [podlog.Info "Defaulting for Pod".toList [("name".toList, pod.Name)]] := by
  simp [PodCustomDefaulter.Default, hget, hlabel, hann, hT]

/-- Entry `i` of a collection after a loop, in terms of `RewriteImage`. -/
theorem rewriteOrKeep_spec (targetRegistry : Str) (c : corev1.Container) :
    (∃ r, registry.RewriteImage c.Image targetRegistry = some (r, none) ∧
        (rewriteOrKeep targetRegistry c).Image = r) ∨
    (∃ r e, registry.RewriteImage c.Image targetRegistry = some (r, some e) ∧
        (rewriteOrKeep targetRegistry c).Image = c.Image) := by
  rcases registry.RewriteImage_cases c.Image targetRegistry with ⟨_, _, r, hr⟩ | ⟨_, e, he⟩
  · exact Or.inl ⟨r, hr, by simp [rewriteOrKeep, hr]⟩
  · exact Or.inr ⟨[], e, he, by simp [rewriteOrKeep, he]⟩

/-! ## The mutation policy: `PodCustomDefaulter.Default` -/

/-- C1: when the namespace lookup succeeds, the label `registry-rewrite` is exactly
`enabled` and the target-registry annotation is a non-empty string `T`, then `Default`
returns a `nil` error and, in each of the three collections (same length as before),
the container at every index has the image `RewriteImage(old image, T)` returned when
that call succeeds and its old image when that call fails, whatever the other entries
are. -/
theorem C1_Default_rewrites_every_container (d : PodCustomDefaulter) (pod : corev1.Pod)
    (ns : corev1.Namespace) (T : Str)
    (hget : d.Client.Get pod.Namespace = Except.ok ns)
    (hlabel : ns.Labels.lookup LabelRegistryRewrite = some LabelValueEnabled)
    (hann : ns.Annotations.lookup AnnotationTargetRegistry = some T)
    (hT : T ≠ []) :
    ∃ pod1 log, d.Default (RuntimeObject.pod pod)
        = some ⟨RuntimeObject.pod pod1, none, log⟩ ∧
      ∀ coll : corev1.PodSpec → List corev1.Container,
        (coll = corev1.PodSpec.Containers ∨ coll = corev1.PodSpec.InitContainers ∨
          coll = corev1.PodSpec.EphemeralContainers) →
        (coll pod1.Spec).length = (coll pod.Spec).length ∧
        ∀ (i : Nat) (c : corev1.Container), (coll pod.Spec)[i]? = some c →
          ∃ c1, (coll pod1.Spec)[i]? = some c1 ∧
            ((∃ r, registry.RewriteImage c.Image T = some (r, none) ∧ c1.Image = r) ∨
             (∃ r e, registry.RewriteImage c.Image T = some (r, some e) ∧
                c1.Image = c.Image)) := by
  refine ⟨_, _, (Default_of_enabled d pod ns T hget hlabel hann hT).trans
    (rewriteAll_eq T pod _), ?_⟩
  intro coll hcoll
  rcases hcoll with rfl | rfl | rfl
  all_goals
    refine ⟨by simp, ?_⟩
    intro i c hc
    exact ⟨rewriteOrKeep T c, by simp [List.getElem?_map, hc], rewriteOrKeep_spec T c⟩


/-- C1 at `mixedPod` in a namespace with the label and the target `myregistry.io`. -/
theorem C1_Default_rewrites_every_container_witness :
    ((testDefaulter enabledNamespace).Client.Get mixedPod.Namespace
        = Except.ok enabledNamespace ∧
      enabledNamespace.Labels.lookup LabelRegistryRewrite = some LabelValueEnabled ∧
      enabledNamespace.Annotations.lookup AnnotationTargetRegistry
        = some "myregistry.io".toList ∧
      "myregistry.io".toList ≠ []) ∧
    ∃ pod1 log, (testDefaulter enabledNamespace).Default (RuntimeObject.pod mixedPod)
        = some ⟨RuntimeObject.pod pod1, none, log⟩ ∧
      ∀ coll : corev1.PodSpec → List corev1.Container,
        (coll = corev1.PodSpec.Containers ∨ coll = corev1.PodSpec.InitContainers ∨
          coll = corev1.PodSpec.EphemeralContainers) →
        (coll pod1.Spec).length = (coll mixedPod.Spec).length ∧
        ∀ (i : Nat) (c : corev1.Container), (coll mixedPod.Spec)[i]? = some c →
          ∃ c1, (coll pod1.Spec)[i]? = some c1 ∧
            ((∃ r, registry.RewriteImage c.Image "myregistry.io".toList = some (r, none) ∧
                c1.Image = r) ∨
             (∃ r e, registry.RewriteImage c.Image "myregistry.io".toList
                  = some (r, some e) ∧
                c1.Image = c.Image)) :=
  ⟨⟨rfl, by decide, by decide, by decide⟩,
   C1_Default_rewrites_every_container (testDefaulter enabledNamespace) mixedPod
     enabledNamespace "myregistry.io".toList rfl (by decide) (by decide) (by decide)⟩

/-- C2: on every object `Default` returns (it does not panic); given a Pod, the
returned error is `nil` whatever the namespace lookup, the labels, the annotations and
the images are; and the returned error is non-`nil` exactly when the object is not a
Pod. -/
theorem C2_Default_error_iff_not_pod (d : PodCustomDefaulter) :
    (∀ pod : corev1.Pod, ∃ obj1 log,
        d.Default (RuntimeObject.pod pod) = some ⟨obj1, none, log⟩) ∧
    (∀ obj : RuntimeObject, ∃ r, d.Default obj = some r ∧
        (r.err ≠ none ↔ ∀ pod : corev1.Pod, obj ≠ RuntimeObject.pod pod)) := by
  have hpod : ∀ pod : corev1.Pod, ∃ obj1 log,
      d.Default (RuntimeObject.pod pod) = some ⟨obj1, none, log⟩ := by
    intro pod
    cases hget : d.Client.Get pod.Namespace with
    | error e => exact ⟨_, _, Default_of_lookup_error d pod e hget⟩
    | ok ns =>
      by_cases hlabel : ns.Labels.lookup LabelRegistryRewrite = some LabelValueEnabled
      · cases hann : ns.Annotations.lookup AnnotationTargetRegistry with
        | none => exact ⟨_, _, Default_of_no_target d pod ns hget hlabel (Or.inl hann)⟩
        | some T =>
          by_cases hT : T = []
          · subst hT
            exact ⟨_, _, Default_of_no_target d pod ns hget hlabel (Or.inr hann)⟩
          · exact ⟨_, _, (Default_of_enabled d pod ns T hget hlabel hann hT).trans
              (rewriteAll_eq T pod _)⟩
      · exact ⟨_, _, Default_of_not_enabled d pod ns hget hlabel⟩
  refine ⟨hpod, ?_⟩
  intro obj
  cases obj with
  | pod pod =>
    obtain ⟨obj1, log, h⟩ := hpod pod
    exact ⟨_, h, by simp⟩
  | other typeName =>
    exact ⟨_, rfl, by simp⟩

/-- C3: when the lookup of the namespace named by the Pod's `Namespace` field fails
with any error, `Default` leaves the Pod exactly as it was and returns a `nil`
error. -/
theorem C3_Default_lookup_failure_no_mutation (d : PodCustomDefaulter) (pod : corev1.Pod)
    (e : GoError) (hget : d.Client.Get pod.Namespace = Except.error e) :
    ∃ log, d.Default (RuntimeObject.pod pod)
      = some ⟨RuntimeObject.pod pod, none, log⟩ :=
  ⟨_, Default_of_lookup_error d pod e hget⟩


/-- C3 at `mixedPod` with a client that does not know its namespace. -/
theorem C3_Default_lookup_failure_no_mutation_witness :
    strayDefaulter.Client.Get mixedPod.Namespace
        = Except.error ⟨"namespace not found: test-namespace".toList⟩ ∧
    ∃ log, strayDefaulter.Default (RuntimeObject.pod mixedPod)
      = some ⟨RuntimeObject.pod mixedPod, none, log⟩ :=
  ⟨rfl, C3_Default_lookup_failure_no_mutation strayDefaulter mixedPod
    ⟨"namespace not found: test-namespace".toList⟩ rfl⟩

/-- C4: when the namespace is found but its `registry-rewrite` label is absent or is
not exactly `enabled`, `Default` leaves the Pod exactly as it was and returns a `nil`
error, whatever the annotations of the namespace are. -/
theorem C4_Default_label_gate (d : PodCustomDefaulter) (pod : corev1.Pod)
    (ns : corev1.Namespace) (hget : d.Client.Get pod.Namespace = Except.ok ns)
    (hlabel : ns.Labels.lookup LabelRegistryRewrite ≠ some LabelValueEnabled) :
    ∃ log, d.Default (RuntimeObject.pod pod)
      = some ⟨RuntimeObject.pod pod, none, log⟩ :=
  ⟨_, Default_of_not_enabled d pod ns hget hlabel⟩


/-- C4 at `mixedPod` in a namespace labelled `disabled` that carries the annotation. -/
theorem C4_Default_label_gate_witness :
    ((testDefaulter disabledNamespace).Client.Get mixedPod.Namespace
        = Except.ok disabledNamespace ∧
      disabledNamespace.Labels.lookup LabelRegistryRewrite ≠ some LabelValueEnabled) ∧
    ∃ log, (testDefaulter disabledNamespace).Default (RuntimeObject.pod mixedPod)
      = some ⟨RuntimeObject.pod mixedPod, none, log⟩ :=
  ⟨⟨rfl, by decide⟩,
   C4_Default_label_gate (testDefaulter disabledNamespace) mixedPod disabledNamespace rfl
     (by decide)⟩

/-- C5: when the namespace is found and labelled `registry-rewrite=enabled` but the
target-registry annotation is absent or is the empty string, `Default` leaves the Pod
exactly as it was and returns a `nil` error. -/
theorem C5_Default_annotation_gate (d : PodCustomDefaulter) (pod : corev1.Pod)
    (ns : corev1.Namespace) (hget : d.Client.Get pod.Namespace = Except.ok ns)
    (hlabel : ns.Labels.lookup LabelRegistryRewrite = some LabelValueEnabled)
    (hann : ns.Annotations.lookup AnnotationTargetRegistry = none ∨
            ns.Annotations.lookup AnnotationTargetRegistry = some []) :
    ∃ log, d.Default (RuntimeObject.pod pod)
      = some ⟨RuntimeObject.pod pod, none, log⟩ :=
  ⟨_, Default_of_no_target d pod ns hget hlabel hann⟩


/-- C5 at `mixedPod` in a labelled namespace without the annotation. -/
theorem C5_Default_annotation_gate_witness :
    ((testDefaulter unannotatedNamespace).Client.Get mixedPod.Namespace
        = Except.ok unannotatedNamespace ∧
      unannotatedNamespace.Labels.lookup LabelRegistryRewrite = some LabelValueEnabled ∧
      (unannotatedNamespace.Annotations.lookup AnnotationTargetRegistry = none ∨
        unannotatedNamespace.Annotations.lookup AnnotationTargetRegistry = some [])) ∧
    ∃ log, (testDefaulter unannotatedNamespace).Default (RuntimeObject.pod mixedPod)
      = some ⟨RuntimeObject.pod mixedPod, none, log⟩ :=
  ⟨⟨rfl, by decide, Or.inl (by decide)⟩,
   C5_Default_annotation_gate (testDefaulter unannotatedNamespace) mixedPod
     unannotatedNamespace rfl (by decide) (Or.inl (by decide))⟩

/-! ## The reference rewriter: `RewriteImage` -/

/-- The text after the last `/` is a suffix of the text after the first `/`. -/
theorem Str.last_segment_suffix_rest (seg rest pre s : Str)
    (h : seg ++ '/' :: rest = pre ++ '/' :: s) (hs : '/' ∉ s) : s <:+ rest := by
  have h1 : s <:+ seg ++ '/' :: rest := by
    rw [h]
    exact ⟨pre ++ ['/'], by simp⟩
  have h2 : rest <:+ seg ++ '/' :: rest := ⟨seg ++ ['/'], by simp⟩
  have h3 : '/' :: rest <:+ seg ++ '/' :: rest := List.suffix_append _ _
  by_cases hlen : s.length ≤ rest.length
  · exact List.suffix_of_suffix_length_le h1 h2 hlen
  · have hle : ('/' :: rest).length ≤ s.length := by
      simp only [List.length_cons]
      omega
    have h4 : '/' :: rest <:+ s := List.suffix_of_suffix_length_le h3 h1 hle
    exact absurd (h4.mem (List.mem_cons_self _ _)) hs

/-- C6: registry stripping. For a non-empty target and an original `seg/rest` whose
text `seg` before the first `/` contains a `.` or a `:`, the result is
`target/rest` when `rest` contains `:` or `@` and `target/rest:latest` otherwise; the
result depends on `rest` and `target` only, so nothing of the first segment is carried
into it. -/
theorem C6_RewriteImage_strips_registry (original target seg rest : Str)
    (ht : target ≠ []) (horig : original = seg ++ '/' :: rest) (hseg : '/' ∉ seg)
    (hreg : '.' ∈ seg ∨ ':' ∈ seg) :
    registry.RewriteImage original target
        = some (target ++ ['/'] ++ rest ++
            (if ':' ∈ rest ∨ '@' ∈ rest then [] else ":latest".toList), none) ∧
    ∀ seg2 : Str, '/' ∉ seg2 → ('.' ∈ seg2 ∨ ':' ∈ seg2) →
      registry.RewriteImage (seg2 ++ '/' :: rest) target
        = registry.RewriteImage original target := by
  have key : ∀ sg : Str, '/' ∉ sg → ('.' ∈ sg ∨ ':' ∈ sg) →
      registry.RewriteImage (sg ++ '/' :: rest) target
        = some (target ++ ['/'] ++ rest ++
            (if ':' ∈ rest ∨ '@' ∈ rest then [] else ":latest".toList), none) := by
    intro sg h1 h2
    have hs : registry.stripRegistry (sg ++ '/' :: rest) = some rest := by
      rw [registry.stripRegistry_of_split sg rest h1, if_pos h2]
    rw [registry.RewriteImage_of_strip _ _ rest (by simp) ht hs, registry.defaultTag_eq]
    by_cases hr : ':' ∈ rest ∨ '@' ∈ rest
    · simp [hr]
    · simp [hr]
  subst horig
  refine ⟨key seg hseg hreg, ?_⟩
  intro seg2 h1 h2
  rw [key seg2 h1 h2, key seg hseg hreg]


/-- C6 at `gcr.io/project/subproject/app:v1` (the deep-path test). -/
theorem C6_RewriteImage_strips_registry_witness :
    ("target-registry.com".toList ≠ [] ∧
      "gcr.io/project/subproject/app:v1".toList
        = "gcr.io".toList ++ '/' :: "project/subproject/app:v1".toList ∧
      '/' ∉ "gcr.io".toList ∧ ('.' ∈ "gcr.io".toList ∨ ':' ∈ "gcr.io".toList)) ∧
    (registry.RewriteImage "gcr.io/project/subproject/app:v1".toList
        "target-registry.com".toList
        = some ("target-registry.com".toList ++ ['/'] ++ "project/subproject/app:v1".toList ++
            (if ':' ∈ "project/subproject/app:v1".toList ∨
                '@' ∈ "project/subproject/app:v1".toList then []
              else ":latest".toList), none) ∧
      ∀ seg2 : Str, '/' ∉ seg2 → ('.' ∈ seg2 ∨ ':' ∈ seg2) →
        registry.RewriteImage (seg2 ++ '/' :: "project/subproject/app:v1".toList)
            "target-registry.com".toList
          = registry.RewriteImage "gcr.io/project/subproject/app:v1".toList
              "target-registry.com".toList) :=
  ⟨⟨by decide, by decide, by decide, Or.inl (by decide)⟩,
   C6_RewriteImage_strips_registry "gcr.io/project/subproject/app:v1".toList
     "target-registry.com".toList "gcr.io".toList "project/subproject/app:v1".toList
     (by decide) (by decide) (by decide) (Or.inl (by decide))⟩

/-- C7: no registry stripping. For a non-empty target and a non-empty original that
has no `/`, or whose text before the first `/` contains neither `.` nor `:`, the
result is `target/original` when the original contains `:` or `@` and
`target/original:latest` otherwise. -/
theorem C7_RewriteImage_keeps_whole_path (original target : Str)
    (ho : original ≠ []) (ht : target ≠ [])
    (h : '/' ∉ original ∨
         ∃ seg rest, original = seg ++ '/' :: rest ∧ '/' ∉ seg ∧ '.' ∉ seg ∧ ':' ∉ seg) :
    registry.RewriteImage original target
      = some (target ++ ['/'] ++ original ++
          (if ':' ∈ original ∨ '@' ∈ original then [] else ":latest".toList), none) := by
  have hs : registry.stripRegistry original = some original := by
    rcases h with h | ⟨seg, rest, rfl, h1, h2, h3⟩
    · exact registry.stripRegistry_of_no_slash original h
    · rw [registry.stripRegistry_of_split seg rest h1, if_neg (by simp [h2, h3])]
  rw [registry.RewriteImage_of_strip _ _ original ho ht hs, registry.defaultTag_eq]
  by_cases hr : ':' ∈ original ∨ '@' ∈ original
  · simp [hr]
  · simp [hr]


/-- C7 at the single-label host `myregistry/app:v1`. -/
theorem C7_RewriteImage_keeps_whole_path_witness :
    ("myregistry/app:v1".toList ≠ [] ∧ "target-registry.com".toList ≠ [] ∧
      ('/' ∉ "myregistry/app:v1".toList ∨
        ∃ seg rest, "myregistry/app:v1".toList = seg ++ '/' :: rest ∧
          '/' ∉ seg ∧ '.' ∉ seg ∧ ':' ∉ seg)) ∧
    registry.RewriteImage "myregistry/app:v1".toList "target-registry.com".toList
      = some ("target-registry.com".toList ++ ['/'] ++ "myregistry/app:v1".toList ++
          (if ':' ∈ "myregistry/app:v1".toList ∨ '@' ∈ "myregistry/app:v1".toList then []
            else ":latest".toList), none) :=
  ⟨⟨by decide, by decide,
      Or.inr ⟨"myregistry".toList, "app:v1".toList, by decide, by decide, by decide,
        by decide⟩⟩,
   C7_RewriteImage_keeps_whole_path "myregistry/app:v1".toList "target-registry.com".toList
     (by decide) (by decide)
     (Or.inr ⟨"myregistry".toList, "app:v1".toList, by decide, by decide, by decide,
        by decide⟩)⟩

/-- C8: for a non-empty original with neither `:` nor `@` and a non-empty target,
`RewriteImage` succeeds and its result ends with `:latest`. -/
theorem C8_RewriteImage_defaults_to_latest (original target : Str)
    (ho : original ≠ []) (ht : target ≠ [])
    (hcolon : ':' ∉ original) (hat : '@' ∉ original) :
    ∃ r, registry.RewriteImage original target = some (r, none) ∧
      ":latest".toList <:+ r := by
  obtain ⟨image, hs, hsuf⟩ := registry.stripRegistry_suffix original
  have h1 : ':' ∉ image := fun hm => hcolon (hsuf.mem hm)
  have h2 : '@' ∉ image := fun hm => hat (hsuf.mem hm)
  refine ⟨_, registry.RewriteImage_of_strip _ _ image ho ht hs, ?_⟩
  rw [registry.defaultTag_eq, if_neg (by simp [h1, h2])]
  exact ⟨target ++ ['/'] ++ image, by simp⟩


/-- C8 at `docker.io/library/nginx`. -/
theorem C8_RewriteImage_defaults_to_latest_witness :
    ("docker.io/library/nginx".toList ≠ [] ∧ "target-registry.com".toList ≠ [] ∧
      ':' ∉ "docker.io/library/nginx".toList ∧ '@' ∉ "docker.io/library/nginx".toList) ∧
    ∃ r, registry.RewriteImage "docker.io/library/nginx".toList "target-registry.com".toList
        = some (r, none) ∧
      ":latest".toList <:+ r :=
  ⟨⟨by decide, by decide, by decide, by decide⟩,
   C8_RewriteImage_defaults_to_latest "docker.io/library/nginx".toList
     "target-registry.com".toList (by decide) (by decide) (by decide) (by decide)⟩

/-- C9: an explicit tag or digest is preserved. Let `s` be the text of a non-empty
original after its last `/` (the whole original when it has no `/`). If `s` contains
`:` or `@`, then for a non-empty target the result is `target/suf` for a suffix `suf`
of the original that itself ends with `s`: the result ends with `s` and `:latest` is
not appended. -/
theorem C9_RewriteImage_preserves_tag_or_digest (original target pre s : Str)
    (ho : original ≠ []) (ht : target ≠ [])
    (hsplit : original = pre ++ s) (hlast : '/' ∉ s)
    (hpre : pre = [] ∨ ∃ p, pre = p ++ ['/'])
    (htag : ':' ∈ s ∨ '@' ∈ s) :
    ∃ suf r, registry.RewriteImage original target = some (r, none) ∧
      r = target ++ ['/'] ++ suf ∧ suf <:+ original ∧ s <:+ suf ∧ s <:+ r := by
  have hkeep : ∀ image : Str, s <:+ image → registry.defaultTag image = image := by
    intro image hsuf
    rw [registry.defaultTag_eq, if_pos]
    rcases htag with h | h
    · exact Or.inl (hsuf.mem h)
    · exact Or.inr (hsuf.mem h)
  have hso : s <:+ original := by
    rw [hsplit]
    exact List.suffix_append _ _
  have hdone : ∀ image : Str, registry.stripRegistry original = some image →
      image <:+ original → s <:+ image →
      ∃ suf r, registry.RewriteImage original target = some (r, none) ∧
        r = target ++ ['/'] ++ suf ∧ suf <:+ original ∧ s <:+ suf ∧ s <:+ r := by
    intro image hs h1 h2
    refine ⟨image, _, registry.RewriteImage_of_strip _ _ image ho ht hs, ?_, h1, h2, ?_⟩
    · rw [hkeep image h2]
    · rw [hkeep image h2]
      exact h2.trans (List.suffix_append _ _)
  by_cases hslash : '/' ∈ original
  · obtain ⟨seg, rest, hsr, hseg⟩ := Str.split_at_first '/' original hslash
    have hrest : s <:+ rest := by
      rcases hpre with hp | ⟨p, hp⟩
      · subst hp
        simp only [List.nil_append] at hsplit
        subst hsplit
        exact absurd hslash hlast
      · have heq : seg ++ '/' :: rest = p ++ '/' :: s := by
          rw [← hsr, hsplit, hp]
          simp
        exact Str.last_segment_suffix_rest seg rest p s heq hlast
    have hstrip := registry.stripRegistry_of_split seg rest hseg
    rw [← hsr] at hstrip
    by_cases hreg : '.' ∈ seg ∨ ':' ∈ seg
    · rw [if_pos hreg] at hstrip
      exact hdone rest hstrip ⟨seg ++ ['/'], by rw [hsr]; simp⟩ hrest
    · rw [if_neg hreg] at hstrip
      exact hdone original hstrip (List.suffix_refl _) hso
  · exact hdone original (registry.stripRegistry_of_no_slash original hslash)
      (List.suffix_refl _) hso


/-- C9 at `gcr.io/project/nginx@sha256:abc123def456`. -/
theorem C9_RewriteImage_preserves_tag_or_digest_witness :
    ("gcr.io/project/nginx@sha256:abc123def456".toList ≠ [] ∧
      "target-registry.com".toList ≠ [] ∧
      "gcr.io/project/nginx@sha256:abc123def456".toList
        = "gcr.io/project/".toList ++ "nginx@sha256:abc123def456".toList ∧
      '/' ∉ "nginx@sha256:abc123def456".toList ∧
      ("gcr.io/project/".toList = [] ∨ ∃ p, "gcr.io/project/".toList = p ++ ['/']) ∧
      (':' ∈ "nginx@sha256:abc123def456".toList ∨
        '@' ∈ "nginx@sha256:abc123def456".toList)) ∧
    ∃ suf r, registry.RewriteImage "gcr.io/project/nginx@sha256:abc123def456".toList
          "target-registry.com".toList = some (r, none) ∧
      r = "target-registry.com".toList ++ ['/'] ++ suf ∧
      suf <:+ "gcr.io/project/nginx@sha256:abc123def456".toList ∧
      "nginx@sha256:abc123def456".toList <:+ suf ∧
      "nginx@sha256:abc123def456".toList <:+ r :=
  ⟨⟨by decide, by decide, by decide, by decide,
      Or.inr ⟨"gcr.io/project".toList, by decide⟩, Or.inl (by decide)⟩,
   C9_RewriteImage_preserves_tag_or_digest "gcr.io/project/nginx@sha256:abc123def456".toList
     "target-registry.com".toList "gcr.io/project/".toList
     "nginx@sha256:abc123def456".toList (by decide) (by decide) (by decide) (by decide)
     (Or.inr ⟨"gcr.io/project".toList, by decide⟩) (Or.inl (by decide))⟩

/-- C10: `RewriteImage` returns an error exactly when the original or the target is
the empty string, and returns a string with a `nil` error exactly when both are
non-empty; it never panics. -/
theorem C10_RewriteImage_error_iff_empty (original target : Str) :
    ((∃ r e, registry.RewriteImage original target = some (r, some e)) ↔
        (original = [] ∨ target = [])) ∧
    ((∃ r, registry.RewriteImage original target = some (r, none)) ↔
        (original ≠ [] ∧ target ≠ [])) := by
  rcases registry.RewriteImage_cases original target with ⟨ho, ht, r, hr⟩ | ⟨hemp, e, he⟩
  · constructor
    · constructor
      · rintro ⟨r1, e1, h1⟩
        rw [hr] at h1
        simp at h1
      · rintro (h | h)
        · exact absurd h ho
        · exact absurd h ht
    · exact ⟨fun _ => ⟨ho, ht⟩, fun _ => ⟨r, hr⟩⟩
  · constructor
    · exact ⟨fun _ => hemp, fun _ => ⟨[], e, he⟩⟩
    · constructor
      · rintro ⟨r1, h1⟩
        rw [he] at h1
        simp at h1
      · rintro ⟨ho, ht⟩
        rcases hemp with h | h
        · exact absurd h ho
        · exact absurd h ht

/-! ## Rewriting an image that was already rewritten -/

/-- The defaulted image always carries a tag or digest marker. -/
theorem registry.defaultTag_marker (image : Str) :
    ':' ∈ registry.defaultTag image ∨ '@' ∈ registry.defaultTag image := by
  rw [registry.defaultTag_eq]
  by_cases h : ':' ∈ image ∨ '@' ∈ image
  · rw [if_pos h]
    exact h
  · rw [if_neg h]
    exact Or.inl (by simp)

/-- An image that carries a marker is not given `:latest`. -/
theorem registry.defaultTag_of_marker (image : Str) (h : ':' ∈ image ∨ '@' ∈ image) :
    registry.defaultTag image = image := by
  rw [registry.defaultTag_eq, if_pos h]

/-- Every successful result is `target/r` with a marker in `r`. -/
theorem registry.RewriteImage_form (original target : Str)
    (ho : original ≠ []) (ht : target ≠ []) :
    ∃ r, registry.RewriteImage original target = some (target ++ ['/'] ++ r, none) ∧
      (':' ∈ r ∨ '@' ∈ r) := by
  obtain ⟨image, hs, _⟩ := registry.stripRegistry_suffix original
  exact ⟨registry.defaultTag image, registry.RewriteImage_of_strip _ _ image ho ht hs,
    registry.defaultTag_marker image⟩

/-- A plain host target (no `/`, with a `.` or a `:`) is recognised in front of its
own output and stripped again: `target/r` is a fixed point. -/
theorem registry.RewriteImage_plain_host_fixed (target r : Str)
    (hslash : '/' ∉ target) (hreg : '.' ∈ target ∨ ':' ∈ target)
    (hr : ':' ∈ r ∨ '@' ∈ r) :
    registry.RewriteImage (target ++ ['/'] ++ r) target
      = some (target ++ ['/'] ++ r, none) := by
  have ht : target ≠ [] := by
    rintro rfl
    simp at hreg
  have hs : registry.stripRegistry (target ++ ['/'] ++ r) = some r := by
    have := registry.stripRegistry_of_split target r hslash
    rw [if_pos hreg] at this
    simpa using this
  rw [registry.RewriteImage_of_strip _ _ r (by simp) ht hs, registry.defaultTag_of_marker r hr]

/-- A target with a `/` is never stripped whole from its own output: rewriting
`target/r` again inserts a non-empty text between the target and `r`. -/
theorem registry.RewriteImage_path_target_grows (target r : Str)
    (hslash : '/' ∈ target) (hr : ':' ∈ r ∨ '@' ∈ r) :
    ∃ x : Str, x ≠ [] ∧
      registry.RewriteImage (target ++ ['/'] ++ r) target
        = some (target ++ ['/'] ++ (x ++ r), none) := by
  have ht : target ≠ [] := by
    rintro rfl
    simp at hslash
  obtain ⟨t0, t1, ht01, ht0⟩ := Str.split_at_first '/' target hslash
  have hout : target ++ ['/'] ++ r = t0 ++ '/' :: (t1 ++ '/' :: r) := by
    rw [ht01]
    simp
  have hstrip := registry.stripRegistry_of_split t0 (t1 ++ '/' :: r) ht0
  rw [← hout] at hstrip
  by_cases hreg : '.' ∈ t0 ∨ ':' ∈ t0
  · rw [if_pos hreg] at hstrip
    have hm : ':' ∈ t1 ++ '/' :: r ∨ '@' ∈ t1 ++ '/' :: r := by
      rcases hr with h | h
      · exact Or.inl (by simp [h])
      · exact Or.inr (by simp [h])
    refine ⟨t1 ++ ['/'], by simp, ?_⟩
    rw [registry.RewriteImage_of_strip _ _ _ (by simp) ht hstrip,
      registry.defaultTag_of_marker _ hm]
    simp
  · rw [if_neg hreg] at hstrip
    have hm : ':' ∈ target ++ ['/'] ++ r ∨ '@' ∈ target ++ ['/'] ++ r := by
      rcases hr with h | h
      · exact Or.inl (by simp [h])
      · exact Or.inr (by simp [h])
    refine ⟨target ++ ['/'], by simp [ht], ?_⟩
    rw [registry.RewriteImage_of_strip _ _ _ (by simp) ht hstrip,
      registry.defaultTag_of_marker _ hm]

/-- A target without `.` and `:` is never recognised as a registry in front of its own
output: rewriting `target/r` again prefixes the target once more. -/
theorem registry.RewriteImage_unmarked_target_nests (target r : Str)
    (ht : target ≠ []) (hdot : '.' ∉ target) (hcolon : ':' ∉ target)
    (hr : ':' ∈ r ∨ '@' ∈ r) :
    registry.RewriteImage (target ++ ['/'] ++ r) target
      = some (target ++ ['/'] ++ (target ++ ['/'] ++ r), none) := by
  have hm : ':' ∈ target ++ ['/'] ++ r ∨ '@' ∈ target ++ ['/'] ++ r := by
    rcases hr with h | h
    · exact Or.inl (by simp [h])
    · exact Or.inr (by simp [h])
  have hs : registry.stripRegistry (target ++ ['/'] ++ r) = some (target ++ ['/'] ++ r) := by
    by_cases hslash : '/' ∈ target
    · obtain ⟨t0, t1, ht01, ht0⟩ := Str.split_at_first '/' target hslash
      have hout : target ++ ['/'] ++ r = t0 ++ '/' :: (t1 ++ '/' :: r) := by
        rw [ht01]
        simp
      have hstrip := registry.stripRegistry_of_split t0 (t1 ++ '/' :: r) ht0
      have hno : ¬('.' ∈ t0 ∨ ':' ∈ t0) := by
        rintro (h | h)
        · exact hdot (by rw [ht01]; simp [h])
        · exact hcolon (by rw [ht01]; simp [h])
      rw [if_neg hno, ← hout] at hstrip
      exact hstrip
    · have hstrip := registry.stripRegistry_of_split target r hslash
      rw [if_neg (by simp [hdot, hcolon])] at hstrip
      simpa using hstrip
  rw [registry.RewriteImage_of_strip _ _ _ (by simp) ht hs, registry.defaultTag_of_marker _ hm]

/-- C12 (as stated, refuted): the target `registry.example.com/mirror` contains a
`.`, yet rewriting `nginx` twice does not give the result of rewriting it once: only
the first segment `registry.example.com` of the output is stripped, and `mirror/` is
kept and prefixed again. -/
theorem C12_idempotence_fails_for_path_target :
    '.' ∈ "registry.example.com/mirror".toList ∧
    registry.RewriteImage "nginx".toList "registry.example.com/mirror".toList
      = some ("registry.example.com/mirror/nginx:latest".toList, none) ∧
    registry.RewriteImage "registry.example.com/mirror/nginx:latest".toList
        "registry.example.com/mirror".toList
      = some ("registry.example.com/mirror/mirror/nginx:latest".toList, none) ∧
    "registry.example.com/mirror/mirror/nginx:latest".toList
      ≠ "registry.example.com/mirror/nginx:latest".toList := by
  decide

/-- C12 (amended): for a non-empty original and a target that contains a `.` or a
`:`, rewriting the output again with the same target returns the same string exactly
when the target contains no `/`. -/
theorem C12_RewriteImage_idempotent_iff_no_slash (original target : Str)
    (ho : original ≠ []) (hreg : '.' ∈ target ∨ ':' ∈ target) :
    (∃ r, registry.RewriteImage original target = some (r, none) ∧
        registry.RewriteImage r target = some (r, none)) ↔ '/' ∉ target := by
  have ht : target ≠ [] := by
    rintro rfl
    simp at hreg
  obtain ⟨r, hfirst, hr⟩ := registry.RewriteImage_form original target ho ht
  constructor
  · rintro ⟨r1, h1, h2⟩ hslash
    rw [hfirst] at h1
    have hr1 : r1 = target ++ ['/'] ++ r := by
      simp only [Option.some.injEq, Prod.mk.injEq, and_true] at h1
      exact h1.symm
    subst hr1
    obtain ⟨x, hx, hgrow⟩ := registry.RewriteImage_path_target_grows target r hslash hr
    rw [hgrow] at h2
    simp only [Option.some.injEq, Prod.mk.injEq, and_true] at h2
    have hlen := congrArg List.length h2
    simp only [List.length_append, List.length_singleton] at hlen
    have hxlen : 0 < x.length := List.length_pos.2 hx
    omega
  · intro hslash
    exact ⟨_, hfirst, registry.RewriteImage_plain_host_fixed target r hslash hreg hr⟩

/-- C12 (amended) at `docker.io/library/nginx` and the plain host `myregistry.io`. -/
theorem C12_RewriteImage_idempotent_iff_no_slash_witness :
    ("docker.io/library/nginx".toList ≠ [] ∧
      ('.' ∈ "myregistry.io".toList ∨ ':' ∈ "myregistry.io".toList)) ∧
    ((∃ r, registry.RewriteImage "docker.io/library/nginx".toList "myregistry.io".toList
          = some (r, none) ∧
        registry.RewriteImage r "myregistry.io".toList = some (r, none)) ↔
      '/' ∉ "myregistry.io".toList) :=
  ⟨⟨by decide, Or.inl (by decide)⟩,
   C12_RewriteImage_idempotent_iff_no_slash "docker.io/library/nginx".toList
     "myregistry.io".toList (by decide) (Or.inl (by decide))⟩

/-- C14: the reference scenarios with the target `target-registry.com`; every call
returns the expected string and a `nil` error. -/
theorem C14_RewriteImage_reference_scenarios :
    registry.RewriteImage "nginx:latest".toList "target-registry.com".toList
      = some ("target-registry.com/nginx:latest".toList, none) ∧
    registry.RewriteImage "nginx".toList "target-registry.com".toList
      = some ("target-registry.com/nginx:latest".toList, none) ∧
    registry.RewriteImage "docker.io/library/nginx:latest".toList "target-registry.com".toList
      = some ("target-registry.com/library/nginx:latest".toList, none) ∧
    registry.RewriteImage "localhost:5000/myapp:v1".toList "target-registry.com".toList
      = some ("target-registry.com/myapp:v1".toList, none) ∧
    registry.RewriteImage "nginx@sha256:abc123def456".toList "target-registry.com".toList
      = some ("target-registry.com/nginx@sha256:abc123def456".toList, none) ∧
    registry.RewriteImage "gcr.io/project/app:v1".toList "target-registry.com".toList
      = some ("target-registry.com/project/app:v1".toList, none) ∧
    registry.RewriteImage "gcr.io/project/subproject/app:v1".toList
        "target-registry.com".toList
      = some ("target-registry.com/project/subproject/app:v1".toList, none) := by
  refine ⟨?_, ?_, ?_, ?_, ?_, ?_, ?_⟩ <;> decide

/-- C15: an empty original gives the empty-image error for every target, the empty
one included; a non-empty original with an empty target gives the
empty-target-registry error; the two errors differ; and whenever an error is returned
the returned string is empty. -/
theorem C15_RewriteImage_which_error :
    (∀ target : Str, registry.RewriteImage [] target
        = some ([], some (errors.New "original image cannot be empty".toList))) ∧
    (∀ original : Str, original ≠ [] → registry.RewriteImage original []
        = some ([], some (errors.New "target registry cannot be empty".toList))) ∧
    errors.New "original image cannot be empty".toList
      ≠ errors.New "target registry cannot be empty".toList ∧
    (∀ (original target r : Str) (e : GoError),
        registry.RewriteImage original target = some (r, some e) → r = []) := by
  refine ⟨?_, ?_, by decide, ?_⟩
  · intro target
    simp [registry.RewriteImage]
  · intro original ho
    simp [registry.RewriteImage, ho]
  · intro original target r e h
    rcases registry.RewriteImage_cases original target with ⟨_, _, r1, h1⟩ | ⟨_, e1, h1⟩
    · rw [h1] at h
      simp at h
    · rw [h1] at h
      simp only [Option.some.injEq, Prod.mk.injEq] at h
      exact h.1.symm

/-- C17: for a non-empty original and a target with no `/` and with a `.` or a `:`,
rewriting the output again with the same target returns the same string; and every
image `target/r` whose `r` contains `:` or `@` is a fixed point. -/
theorem C17_RewriteImage_idempotent_plain_host (original target : Str)
    (ho : original ≠ []) (hslash : '/' ∉ target) (hreg : '.' ∈ target ∨ ':' ∈ target) :
    (∃ r, registry.RewriteImage original target = some (r, none) ∧
        registry.RewriteImage r target = some (r, none)) ∧
    (∀ r : Str, (':' ∈ r ∨ '@' ∈ r) →
        registry.RewriteImage (target ++ ['/'] ++ r) target
          = some (target ++ ['/'] ++ r, none)) := by
  have ht : target ≠ [] := by
    rintro rfl
    simp at hreg
  obtain ⟨r, hfirst, hr⟩ := registry.RewriteImage_form original target ho ht
  exact ⟨⟨_, hfirst, registry.RewriteImage_plain_host_fixed target r hslash hreg hr⟩,
    fun r1 hr1 => registry.RewriteImage_plain_host_fixed target r1 hslash hreg hr1⟩

/-- C17 at `localhost:5000/myapp` and the target `target-registry.com`. -/
theorem C17_RewriteImage_idempotent_plain_host_witness :
    ("localhost:5000/myapp".toList ≠ [] ∧ '/' ∉ "target-registry.com".toList ∧
      ('.' ∈ "target-registry.com".toList ∨ ':' ∈ "target-registry.com".toList)) ∧
    ((∃ r, registry.RewriteImage "localhost:5000/myapp".toList "target-registry.com".toList
          = some (r, none) ∧
        registry.RewriteImage r "target-registry.com".toList = some (r, none)) ∧
     (∀ r : Str, (':' ∈ r ∨ '@' ∈ r) →
        registry.RewriteImage ("target-registry.com".toList ++ ['/'] ++ r)
            "target-registry.com".toList
          = some ("target-registry.com".toList ++ ['/'] ++ r, none))) :=
  ⟨⟨by decide, by decide, Or.inl (by decide)⟩,
   C17_RewriteImage_idempotent_plain_host "localhost:5000/myapp".toList
     "target-registry.com".toList (by decide) (by decide) (Or.inl (by decide))⟩

/-- C18: for a non-empty target with neither `.` nor `:` and a non-empty original,
rewriting the output again prefixes the target a second time, and the second result
is never the first one. -/
theorem C18_RewriteImage_duplicates_unmarked_target (original target : Str)
    (ho : original ≠ []) (ht : target ≠ []) (hdot : '.' ∉ target) (hcolon : ':' ∉ target) :
    ∃ r1, registry.RewriteImage original target = some (r1, none) ∧
      registry.RewriteImage r1 target = some (target ++ ['/'] ++ r1, none) ∧
      target ++ ['/'] ++ r1 ≠ r1 := by
  obtain ⟨r, hfirst, hr⟩ := registry.RewriteImage_form original target ho ht
  refine ⟨_, hfirst,
    registry.RewriteImage_unmarked_target_nests target r ht hdot hcolon hr, ?_⟩
  intro h
  have hlen := congrArg List.length h
  simp only [List.length_append, List.length_singleton] at hlen
  omega

/-- C18 at `nginx` and the single-label target `myregistry`. -/
theorem C18_RewriteImage_duplicates_unmarked_target_witness :
    ("nginx".toList ≠ [] ∧ "myregistry".toList ≠ [] ∧ '.' ∉ "myregistry".toList ∧
      ':' ∉ "myregistry".toList) ∧
    ∃ r1, registry.RewriteImage "nginx".toList "myregistry".toList = some (r1, none) ∧
      registry.RewriteImage r1 "myregistry".toList
        = some ("myregistry".toList ++ ['/'] ++ r1, none) ∧
      "myregistry".toList ++ ['/'] ++ r1 ≠ r1 :=
  ⟨⟨by decide, by decide, by decide, by decide⟩,
   C18_RewriteImage_duplicates_unmarked_target "nginx".toList "myregistry".toList
     (by decide) (by decide) (by decide) (by decide)⟩

/-! ## `Default` past the gates, container by container -/

/-- The three gates are passed exactly when the lookup succeeds with a namespace `ns`
labelled `enabled` whose annotation is a non-empty `T`. -/
theorem Default_pod_cases (d : PodCustomDefaulter) (pod : corev1.Pod) :
    ((¬∃ ns T, d.Client.Get pod.Namespace = Except.ok ns ∧
          ns.Labels.lookup LabelRegistryRewrite = some LabelValueEnabled ∧
          ns.Annotations.lookup AnnotationTargetRegistry = some T ∧ T ≠ []) ∧
      ∃ log, d.Default (RuntimeObject.pod pod)
        = some ⟨RuntimeObject.pod pod, none, log⟩) ∨
    (∃ ns T, (d.Client.Get pod.Namespace = Except.ok ns ∧
          ns.Labels.lookup LabelRegistryRewrite = some LabelValueEnabled ∧
          ns.Annotations.lookup AnnotationTargetRegistry = some T ∧ T ≠ []) ∧
      ∃ log, d.Default (RuntimeObject.pod pod)
        = some ⟨RuntimeObject.pod (rewrittenPod T pod), none, log⟩) := by
  cases hget : d.Client.Get pod.Namespace with
  | error e =>
    refine Or.inl ⟨?_, _, Default_of_lookup_error d pod e hget⟩
    rintro ⟨ns, T, h, _⟩
    simp at h
  | ok ns =>
    by_cases hlabel : ns.Labels.lookup LabelRegistryRewrite = some LabelValueEnabled
    · cases hann : ns.Annotations.lookup AnnotationTargetRegistry with
      | none =>
        refine Or.inl ⟨?_, _, Default_of_no_target d pod ns hget hlabel (Or.inl hann)⟩
        rintro ⟨ns1, T, h, _, ha, _⟩
        simp only [Except.ok.injEq] at h
        subst h
        rw [hann] at ha
        simp at ha
      | some T =>
        by_cases hT : T = []
        · subst hT
          refine Or.inl ⟨?_, _, Default_of_no_target d pod ns hget hlabel (Or.inr hann)⟩
          rintro ⟨ns1, T, h, _, ha, hne⟩
          simp only [Except.ok.injEq] at h
          subst h
          rw [hann] at ha
          simp only [Option.some.injEq] at ha
          exact hne ha.symm
        · exact Or.inr ⟨ns, T, ⟨rfl, hlabel, hann, hT⟩, _,
            (Default_of_enabled d pod ns T hget hlabel hann hT).trans
              (rewriteAll_eq T pod _)⟩
    · refine Or.inl ⟨?_, _, Default_of_not_enabled d pod ns hget hlabel⟩
      rintro ⟨ns1, T, h, hl, _⟩
      simp only [Except.ok.injEq] at h
      subst h
      exact hlabel hl

/-- A loop iteration never touches the name of a container. -/
theorem rewriteOrKeep_name (targetRegistry : Str) (c : corev1.Container) :
    (rewriteOrKeep targetRegistry c).Name = c.Name := by
  rcases registry.RewriteImage_cases c.Image targetRegistry with ⟨_, _, r, hr⟩ | ⟨_, e, he⟩
  · simp [rewriteOrKeep, hr]
  · simp [rewriteOrKeep, he]

/-- A container with an empty image is kept as it is. -/
theorem rewriteOrKeep_of_empty (targetRegistry : Str) (c : corev1.Container)
    (h : c.Image = []) : rewriteOrKeep targetRegistry c = c := by
  simp [rewriteOrKeep, registry.RewriteImage, h]

/-- A container with a non-empty image gets `T/r`, with a marker in `r`. -/
theorem rewriteOrKeep_of_nonempty (T : Str) (c : corev1.Container)
    (h : c.Image ≠ []) (hT : T ≠ []) :
    ∃ r, registry.RewriteImage c.Image T = some (T ++ ['/'] ++ r, none) ∧
      (':' ∈ r ∨ '@' ∈ r) ∧
      rewriteOrKeep T c = { c with Image := T ++ ['/'] ++ r } := by
  obtain ⟨r, hr, hm⟩ := registry.RewriteImage_form c.Image T h hT
  exact ⟨r, hr, hm, by simp [rewriteOrKeep, hr]⟩

/-- With a non-empty target the only error a loop can meet is the empty-image one. -/
theorem registry.RewriteImage_error_of_target (original T r : Str) (e : GoError)
    (hT : T ≠ []) (h : registry.RewriteImage original T = some (r, some e)) :
    original = [] ∧ e = errors.New "original image cannot be empty".toList := by
  by_cases ho : original = []
  · subst ho
    simp [registry.RewriteImage] at h
    exact ⟨rfl, h.2.symm⟩
  · rcases registry.RewriteImage_cases original T with ⟨_, _, r1, h1⟩ | ⟨hemp, _, _⟩
    · rw [h1] at h
      simp at h
    · rcases hemp with h2 | h2
      · exact absurd h2 ho
      · exact absurd h2 hT

/-- C11: in an enabled namespace with the non-empty target `T`, for any mix of empty
and non-empty images: every container with a non-empty image gets the successful
result of `RewriteImage`, every container with an empty image keeps the empty image,
`Default` returns a `nil` error, and a rewrite can only fail with the empty-image
error on an empty image (the empty-target error never occurs). -/
theorem C11_Default_mixed_valid_and_empty (d : PodCustomDefaulter) (pod : corev1.Pod)
    (ns : corev1.Namespace) (T : Str)
    (hget : d.Client.Get pod.Namespace = Except.ok ns)
    (hlabel : ns.Labels.lookup LabelRegistryRewrite = some LabelValueEnabled)
    (hann : ns.Annotations.lookup AnnotationTargetRegistry = some T)
    (hT : T ≠ []) :
    ∃ pod1 log, d.Default (RuntimeObject.pod pod)
        = some ⟨RuntimeObject.pod pod1, none, log⟩ ∧
      ∀ coll : corev1.PodSpec → List corev1.Container,
        (coll = corev1.PodSpec.Containers ∨ coll = corev1.PodSpec.InitContainers ∨
          coll = corev1.PodSpec.EphemeralContainers) →
        (coll pod1.Spec).length = (coll pod.Spec).length ∧
        ∀ (i : Nat) (c : corev1.Container), (coll pod.Spec)[i]? = some c →
          ∃ c1, (coll pod1.Spec)[i]? = some c1 ∧
            (c.Image ≠ [] →
              ∃ r, registry.RewriteImage c.Image T = some (r, none) ∧ c1.Image = r) ∧
            (c.Image = [] → c1.Image = []) ∧
            (∀ (r : Str) (e : GoError),
              registry.RewriteImage c.Image T = some (r, some e) →
                c.Image = [] ∧ e = errors.New "original image cannot be empty".toList) := by
  refine ⟨rewrittenPod T pod, _, (Default_of_enabled d pod ns T hget hlabel hann hT).trans
    (rewriteAll_eq T pod _), ?_⟩
  intro coll hcoll
  rcases hcoll with rfl | rfl | rfl
  all_goals
    refine ⟨by simp [rewrittenPod], ?_⟩
    intro i c hc
    refine ⟨rewriteOrKeep T c, by simp [rewrittenPod, List.getElem?_map, hc], ?_, ?_, ?_⟩
    · intro hne
      obtain ⟨r, hr, _, hk⟩ := rewriteOrKeep_of_nonempty T c hne hT
      exact ⟨_, hr, by rw [hk]⟩
    · intro he
      rw [rewriteOrKeep_of_empty T c he, he]
    · intro r e hre
      exact registry.RewriteImage_error_of_target c.Image T r e hT hre

/-- C11 at `mixedPod`, whose collections mix empty and non-empty images. -/
theorem C11_Default_mixed_valid_and_empty_witness :
    ((testDefaulter enabledNamespace).Client.Get mixedPod.Namespace
        = Except.ok enabledNamespace ∧
      enabledNamespace.Labels.lookup LabelRegistryRewrite = some LabelValueEnabled ∧
      enabledNamespace.Annotations.lookup AnnotationTargetRegistry
        = some "myregistry.io".toList ∧
      "myregistry.io".toList ≠ []) ∧
    ∃ pod1 log, (testDefaulter enabledNamespace).Default (RuntimeObject.pod mixedPod)
        = some ⟨RuntimeObject.pod pod1, none, log⟩ ∧
      ∀ coll : corev1.PodSpec → List corev1.Container,
        (coll = corev1.PodSpec.Containers ∨ coll = corev1.PodSpec.InitContainers ∨
          coll = corev1.PodSpec.EphemeralContainers) →
        (coll pod1.Spec).length = (coll mixedPod.Spec).length ∧
        ∀ (i : Nat) (c : corev1.Container), (coll mixedPod.Spec)[i]? = some c →
          ∃ c1, (coll pod1.Spec)[i]? = some c1 ∧
            (c.Image ≠ [] →
              ∃ r, registry.RewriteImage c.Image "myregistry.io".toList = some (r, none) ∧
                c1.Image = r) ∧
            (c.Image = [] → c1.Image = []) ∧
            (∀ (r : Str) (e : GoError),
              registry.RewriteImage c.Image "myregistry.io".toList = some (r, some e) →
                c.Image = [] ∧ e = errors.New "original image cannot be empty".toList) :=
  ⟨⟨rfl, by decide, by decide, by decide⟩,
   C11_Default_mixed_valid_and_empty (testDefaulter enabledNamespace) mixedPod
     enabledNamespace "myregistry.io".toList rfl (by decide) (by decide) (by decide)⟩

/-- C13: in an enabled namespace with the non-empty target `T`, after the call every
container image of the three collections is either the empty string, and was empty
before, or begins with `T` followed by `/`, with `T` copied as it is. -/
theorem C13_Default_redirects_to_target (d : PodCustomDefaulter) (pod : corev1.Pod)
    (ns : corev1.Namespace) (T : Str)
    (hget : d.Client.Get pod.Namespace = Except.ok ns)
    (hlabel : ns.Labels.lookup LabelRegistryRewrite = some LabelValueEnabled)
    (hann : ns.Annotations.lookup AnnotationTargetRegistry = some T)
    (hT : T ≠ []) :
    ∃ pod1 log, d.Default (RuntimeObject.pod pod)
        = some ⟨RuntimeObject.pod pod1, none, log⟩ ∧
      ∀ coll : corev1.PodSpec → List corev1.Container,
        (coll = corev1.PodSpec.Containers ∨ coll = corev1.PodSpec.InitContainers ∨
          coll = corev1.PodSpec.EphemeralContainers) →
        ∀ (i : Nat) (c1 : corev1.Container), (coll pod1.Spec)[i]? = some c1 →
          (c1.Image = [] ∧ ∃ c, (coll pod.Spec)[i]? = some c ∧ c.Image = []) ∨
          T ++ ['/'] <+: c1.Image := by
  refine ⟨rewrittenPod T pod, _, (Default_of_enabled d pod ns T hget hlabel hann hT).trans
    (rewriteAll_eq T pod _), ?_⟩
  intro coll hcoll
  rcases hcoll with rfl | rfl | rfl
  all_goals
    intro i c1 hc1
    simp only [rewrittenPod, List.getElem?_map, Option.map_eq_some'] at hc1
    obtain ⟨c, hc, rfl⟩ := hc1
    by_cases he : c.Image = []
    · left
      rw [rewriteOrKeep_of_empty T c he]
      exact ⟨he, c, hc, he⟩
    · right
      obtain ⟨r, _, _, hk⟩ := rewriteOrKeep_of_nonempty T c he hT
      rw [hk]
      exact ⟨r, rfl⟩

/-- C13 at `mixedPod` with the target `myregistry.io`. -/
theorem C13_Default_redirects_to_target_witness :
    ((testDefaulter enabledNamespace).Client.Get mixedPod.Namespace
        = Except.ok enabledNamespace ∧
      enabledNamespace.Labels.lookup LabelRegistryRewrite = some LabelValueEnabled ∧
      enabledNamespace.Annotations.lookup AnnotationTargetRegistry
        = some "myregistry.io".toList ∧
      "myregistry.io".toList ≠ []) ∧
    ∃ pod1 log, (testDefaulter enabledNamespace).Default (RuntimeObject.pod mixedPod)
        = some ⟨RuntimeObject.pod pod1, none, log⟩ ∧
      ∀ coll : corev1.PodSpec → List corev1.Container,
        (coll = corev1.PodSpec.Containers ∨ coll = corev1.PodSpec.InitContainers ∨
          coll = corev1.PodSpec.EphemeralContainers) →
        ∀ (i : Nat) (c1 : corev1.Container), (coll pod1.Spec)[i]? = some c1 →
          (c1.Image = [] ∧ ∃ c, (coll mixedPod.Spec)[i]? = some c ∧ c.Image = []) ∨
          "myregistry.io".toList ++ ['/'] <+: c1.Image :=
  ⟨⟨rfl, by decide, by decide, by decide⟩,
   C13_Default_redirects_to_target (testDefaulter enabledNamespace) mixedPod
     enabledNamespace "myregistry.io".toList rfl (by decide) (by decide) (by decide)⟩

/-- C20: on every path `Default` on a Pod returns a `nil` error and a Pod with the
same name and namespace, whose three collections have the same length and the same
container names at the same indices as before: only `Image` fields can differ. -/
theorem C20_Default_frame (d : PodCustomDefaulter) (pod : corev1.Pod) :
    ∃ pod1 log, d.Default (RuntimeObject.pod pod)
        = some ⟨RuntimeObject.pod pod1, none, log⟩ ∧
      pod1.Name = pod.Name ∧ pod1.Namespace = pod.Namespace ∧
      ∀ coll : corev1.PodSpec → List corev1.Container,
        (coll = corev1.PodSpec.Containers ∨ coll = corev1.PodSpec.InitContainers ∨
          coll = corev1.PodSpec.EphemeralContainers) →
        (coll pod1.Spec).length = (coll pod.Spec).length ∧
        (coll pod1.Spec).map corev1.Container.Name
          = (coll pod.Spec).map corev1.Container.Name ∧
        ∀ (i : Nat) (c : corev1.Container), (coll pod.Spec)[i]? = some c →
          ∃ c1, (coll pod1.Spec)[i]? = some c1 ∧ c1.Name = c.Name := by
  rcases Default_pod_cases d pod with ⟨_, log, h⟩ | ⟨ns, T, _, log, h⟩
  · refine ⟨pod, log, h, rfl, rfl, ?_⟩
    intro coll _
    exact ⟨rfl, rfl, fun i c hc => ⟨c, hc, rfl⟩⟩
  · refine ⟨rewrittenPod T pod, log, h, rfl, rfl, ?_⟩
    intro coll hcoll
    have hname : (corev1.Container.Name ∘ rewriteOrKeep T) = corev1.Container.Name := by
      funext c
      exact rewriteOrKeep_name T c
    rcases hcoll with rfl | rfl | rfl
    all_goals
      refine ⟨by simp [rewrittenPod], by simp [rewrittenPod, hname], ?_⟩
      intro i c hc
      exact ⟨rewriteOrKeep T c, by simp [rewrittenPod, List.getElem?_map, hc],
        rewriteOrKeep_name T c⟩

/-- For a plain host target a second loop iteration on a container changes nothing. -/
theorem rewriteOrKeep_idem (T : Str) (c : corev1.Container)
    (hslash : '/' ∉ T) (hreg : '.' ∈ T ∨ ':' ∈ T) :
    rewriteOrKeep T (rewriteOrKeep T c) = rewriteOrKeep T c := by
  have hT : T ≠ [] := by
    rintro rfl
    simp at hreg
  by_cases he : c.Image = []
  · rw [rewriteOrKeep_of_empty T c he, rewriteOrKeep_of_empty T c he]
  · obtain ⟨r, _, hm, hk⟩ := rewriteOrKeep_of_nonempty T c he hT
    have hfx := registry.RewriteImage_plain_host_fixed T r hslash hreg hm
    rw [hk]
    simp only [rewriteOrKeep, hfx]

/-- For a plain host target the rewritten Pod is a fixed point of the three loops. -/
theorem rewrittenPod_idem (T : Str) (pod : corev1.Pod)
    (hslash : '/' ∉ T) (hreg : '.' ∈ T ∨ ':' ∈ T) :
    rewrittenPod T (rewrittenPod T pod) = rewrittenPod T pod := by
  have hfun : (rewriteOrKeep T ∘ rewriteOrKeep T) = rewriteOrKeep T := by
    funext c
    exact rewriteOrKeep_idem T c hslash hreg
  simp [rewrittenPod, List.map_map, hfun]

/-- C19: fix the namespace lookup. If the target, whenever the three gates are
passed, has no `/` and has a `.` or a `:`, then `Default` applied to the Pod it has
just mutated returns that Pod unchanged, with a `nil` error both times; and when a
gate fails the first application already returns the Pod it was given. -/
theorem C19_Default_idempotent (d : PodCustomDefaulter) (pod : corev1.Pod)
    (hplain : ∀ (ns : corev1.Namespace) (T : Str),
      d.Client.Get pod.Namespace = Except.ok ns →
      ns.Labels.lookup LabelRegistryRewrite = some LabelValueEnabled →
      ns.Annotations.lookup AnnotationTargetRegistry = some T → T ≠ [] →
      '/' ∉ T ∧ ('.' ∈ T ∨ ':' ∈ T)) :
    ∃ pod1 log1 log2,
      d.Default (RuntimeObject.pod pod) = some ⟨RuntimeObject.pod pod1, none, log1⟩ ∧
      d.Default (RuntimeObject.pod pod1) = some ⟨RuntimeObject.pod pod1, none, log2⟩ ∧
      ((¬∃ ns T, d.Client.Get pod.Namespace = Except.ok ns ∧
            ns.Labels.lookup LabelRegistryRewrite = some LabelValueEnabled ∧
            ns.Annotations.lookup AnnotationTargetRegistry = some T ∧ T ≠ []) →
        pod1 = pod) := by
  rcases Default_pod_cases d pod with ⟨hno, log, h⟩ | ⟨ns, T, ⟨hget, hlabel, hann, hT⟩, log, h⟩
  · exact ⟨pod, log, log, h, h, fun _ => rfl⟩
  · obtain ⟨hslash, hreg⟩ := hplain ns T hget hlabel hann hT
    have hget1 : d.Client.Get (rewrittenPod T pod).Namespace = Except.ok ns := hget
    have h2 := (Default_of_enabled d (rewrittenPod T pod) ns T hget1 hlabel hann hT).trans
      (rewriteAll_eq T (rewrittenPod T pod) _)
    have hfix : ({ rewrittenPod T pod with Spec :=
        ⟨(rewrittenPod T pod).Spec.Containers.map (rewriteOrKeep T),
         (rewrittenPod T pod).Spec.InitContainers.map (rewriteOrKeep T),
         (rewrittenPod T pod).Spec.EphemeralContainers.map (rewriteOrKeep T)⟩ } : corev1.Pod)
        = rewrittenPod T pod := rewrittenPod_idem T pod hslash hreg
    rw [hfix] at h2
    refine ⟨rewrittenPod T pod, log, _, h, h2, ?_⟩
    intro hno
    exact absurd ⟨ns, T, hget, hlabel, hann, hT⟩ hno

/-- C19 at `mixedPod` in the namespace whose target is the plain host
`myregistry.io`. -/
theorem C19_Default_idempotent_witness :
    (∀ (ns : corev1.Namespace) (T : Str),
      (testDefaulter enabledNamespace).Client.Get mixedPod.Namespace = Except.ok ns →
      ns.Labels.lookup LabelRegistryRewrite = some LabelValueEnabled →
      ns.Annotations.lookup AnnotationTargetRegistry = some T → T ≠ [] →
      '/' ∉ T ∧ ('.' ∈ T ∨ ':' ∈ T)) ∧
    ∃ pod1 log1 log2,
      (testDefaulter enabledNamespace).Default (RuntimeObject.pod mixedPod)
        = some ⟨RuntimeObject.pod pod1, none, log1⟩ ∧
      (testDefaulter enabledNamespace).Default (RuntimeObject.pod pod1)
        = some ⟨RuntimeObject.pod pod1, none, log2⟩ ∧
      ((¬∃ ns T, (testDefaulter enabledNamespace).Client.Get mixedPod.Namespace
              = Except.ok ns ∧
            ns.Labels.lookup LabelRegistryRewrite = some LabelValueEnabled ∧
            ns.Annotations.lookup AnnotationTargetRegistry = some T ∧ T ≠ []) →
        pod1 = mixedPod) :=
  have hplain : ∀ (ns : corev1.Namespace) (T : Str),
      (testDefaulter enabledNamespace).Client.Get mixedPod.Namespace = Except.ok ns →
      ns.Labels.lookup LabelRegistryRewrite = some LabelValueEnabled →
      ns.Annotations.lookup AnnotationTargetRegistry = some T → T ≠ [] →
      '/' ∉ T ∧ ('.' ∈ T ∨ ':' ∈ T) := by
    intro ns T hget _ hann _
    have hns : Except.ok enabledNamespace = (Except.ok ns : Except GoError corev1.Namespace) :=
      hget
    simp only [Except.ok.injEq] at hns
    subst hns
    have hT : some "myregistry.io".toList = some T := hann
    simp only [Option.some.injEq] at hT
    subst hT
    exact ⟨by decide, Or.inl (by decide)⟩
  ⟨hplain, C19_Default_idempotent (testDefaulter enabledNamespace) mixedPod hplain⟩

/-! ## What `Default` logs for a failed rewrite -/

/-- With a non-empty target, a loop logs one entry per container with an empty image,
in order, and nothing for the others; the entry holds the error, the message of the
loop and the image. -/
theorem rewriteFailureLog_filterMap (msg T : Str) (hT : T ≠ [])
    (cs : List corev1.Container) :
    cs.filterMap (rewriteFailureLog msg T)
      = (cs.filter (fun c => decide (c.Image = []))).map (fun c =>
          podlog.Error (errors.New "original image cannot be empty".toList) msg
            [("original".toList, c.Image)]) := by
  induction cs with
  | nil => rfl
  | cons c cs ih =>
    by_cases he : c.Image = []
    · have hlog : rewriteFailureLog msg T c
          = some (podlog.Error (errors.New "original image cannot be empty".toList) msg
              [("original".toList, c.Image)]) := by
        simp [rewriteFailureLog, registry.RewriteImage, he]
      rw [List.filterMap_cons_some hlog, ih, List.filter_cons_of_pos (by simpa using he),
        List.map_cons]
    · obtain ⟨r, hr, _⟩ := registry.RewriteImage_form c.Image T he hT
      have hlog : rewriteFailureLog msg T c = none := by
        simp [rewriteFailureLog, hr]
      rw [List.filterMap_cons_none hlog, ih, List.filter_cons_of_neg (by simpa using he)]

/-- C16 (as stated, refuted): for `mixedPod` in the enabled namespace, the rewrites
of `bad-container` and of `bad-init` fail, and the whole log is the entry of the call
and one error entry for each of them; an error entry holds the error, the message of
its loop and the pair `original` / image, and the name of the failing container
occurs nowhere in the log. -/
theorem C16_failure_log_lacks_container_name :
    ∃ log, ((testDefaulter enabledNamespace).Default (RuntimeObject.pod mixedPod)).map
        (fun r => r.log) = some log ∧
      log = [podlog.Info "Defaulting for Pod".toList [("name".toList, "test-pod".toList)],
             podlog.Error (errors.New "original image cannot be empty".toList)
               "failed to rewrite image".toList [("original".toList, [])],
             podlog.Error (errors.New "original image cannot be empty".toList)
               "failed to rewrite init container image".toList [("original".toList, [])]] ∧
      ∀ entry ∈ log, entry.msg ≠ "bad-container".toList ∧
        ∀ kv ∈ entry.keysAndValues,
          kv.1 ≠ "bad-container".toList ∧ kv.2 ≠ "bad-container".toList :=
  ⟨_, by decide, rfl, by decide⟩

/-- C16 (amended): in an enabled namespace with the non-empty target `T` a rewrite
fails exactly for the containers with an empty image. The log of the call is its first
entry followed, collection by collection and in order, by exactly one error entry per
failing container; the entry holds the empty-image error, the message of the
collection and the original image under the key `original`, and nothing else. Every
failing container is left as it was. -/
theorem C16_Default_failure_log (d : PodCustomDefaulter) (pod : corev1.Pod)
    (ns : corev1.Namespace) (T : Str)
    (hget : d.Client.Get pod.Namespace = Except.ok ns)
    (hlabel : ns.Labels.lookup LabelRegistryRewrite = some LabelValueEnabled)
    (hann : ns.Annotations.lookup AnnotationTargetRegistry = some T)
    (hT : T ≠ []) :
    (∀ image : Str,
      (∃ r e, registry.RewriteImage image T = some (r, some e)) ↔ image = []) ∧
    ∃ pod1, d.Default (RuntimeObject.pod pod)
        = some ⟨RuntimeObject.pod pod1, none,
            [podlog.Info "Defaulting for Pod".toList [("name".toList, pod.Name)]]
            ++ (pod.Spec.Containers.filter (fun c => decide (c.Image = []))).map (fun c =>
                podlog.Error (errors.New "original image cannot be empty".toList)
                  "failed to rewrite image".toList [("original".toList, c.Image)])
            ++ (pod.Spec.InitContainers.filter (fun c => decide (c.Image = []))).map
                (fun c =>
                  podlog.Error (errors.New "original image cannot be empty".toList)
                    "failed to rewrite init container image".toList
                    [("original".toList, c.Image)])
            ++ (pod.Spec.EphemeralContainers.filter (fun c => decide (c.Image = []))).map
                (fun c =>
                  podlog.Error (errors.New "original image cannot be empty".toList)
                    "failed to rewrite ephemeral container image".toList
                    [("original".toList, c.Image)])⟩ ∧
      ∀ coll : corev1.PodSpec → List corev1.Container,
        (coll = corev1.PodSpec.Containers ∨ coll = corev1.PodSpec.InitContainers ∨
          coll = corev1.PodSpec.EphemeralContainers) →
        ∀ (i : Nat) (c : corev1.Container), (coll pod.Spec)[i]? = some c →
          c.Image = [] → (coll pod1.Spec)[i]? = some c := by
  refine ⟨?_, rewrittenPod T pod, ?_, ?_⟩
  · intro image
    constructor
    · rintro ⟨r, e, h⟩
      exact (registry.RewriteImage_error_of_target image T r e hT h).1
    · rintro rfl
      exact ⟨[], errors.New "original image cannot be empty".toList,
        by simp [registry.RewriteImage]⟩
  · rw [Default_of_enabled d pod ns T hget hlabel hann hT, rewriteAll_eq,
      rewriteFailureLog_filterMap _ T hT, rewriteFailureLog_filterMap _ T hT,
      rewriteFailureLog_filterMap _ T hT]
    rfl
  · intro coll hcoll
    rcases hcoll with rfl | rfl | rfl
    all_goals
      intro i c hc he
      simp [rewrittenPod, List.getElem?_map, hc, rewriteOrKeep_of_empty T c he]

/-- C16 (amended) at `mixedPod` with the target `myregistry.io`. -/
theorem C16_Default_failure_log_witness :
    ((testDefaulter enabledNamespace).Client.Get mixedPod.Namespace
        = Except.ok enabledNamespace ∧
      enabledNamespace.Labels.lookup LabelRegistryRewrite = some LabelValueEnabled ∧
      enabledNamespace.Annotations.lookup AnnotationTargetRegistry
        = some "myregistry.io".toList ∧
      "myregistry.io".toList ≠ []) ∧
    ((∀ image : Str,
      (∃ r e, registry.RewriteImage image "myregistry.io".toList = some (r, some e)) ↔
        image = []) ∧
    ∃ pod1, (testDefaulter enabledNamespace).Default (RuntimeObject.pod mixedPod)
        = some ⟨RuntimeObject.pod pod1, none,
            [podlog.Info "Defaulting for Pod".toList [("name".toList, mixedPod.Name)]]
            ++ (mixedPod.Spec.Containers.filter (fun c => decide (c.Image = []))).map
                (fun c =>
                  podlog.Error (errors.New "original image cannot be empty".toList)
                    "failed to rewrite image".toList [("original".toList, c.Image)])
            ++ (mixedPod.Spec.InitContainers.filter (fun c => decide (c.Image = []))).map
                (fun c =>
                  podlog.Error (errors.New "original image cannot be empty".toList)
                    "failed to rewrite init container image".toList
                    [("original".toList, c.Image)])
            ++ (mixedPod.Spec.EphemeralContainers.filter
                  (fun c => decide (c.Image = []))).map
                (fun c =>
                  podlog.Error (errors.New "original image cannot be empty".toList)
                    "failed to rewrite ephemeral container image".toList
                    [("original".toList, c.Image)])⟩ ∧
      ∀ coll : corev1.PodSpec → List corev1.Container,
        (coll = corev1.PodSpec.Containers ∨ coll = corev1.PodSpec.InitContainers ∨
          coll = corev1.PodSpec.EphemeralContainers) →
        ∀ (i : Nat) (c : corev1.Container), (coll mixedPod.Spec)[i]? = some c →
          c.Image = [] → (coll pod1.Spec)[i]? = some c) :=
  ⟨⟨rfl, by decide, by decide, by decide⟩,
   C16_Default_failure_log (testDefaulter enabledNamespace) mixedPod
     enabledNamespace "myregistry.io".toList rfl (by decide) (by decide) (by decide)⟩

/-! ## The shape of a successful result -/

/-- C21: for a non-empty original and a non-empty target, `RewriteImage` returns a
`nil` error and the string `target/r`, where `r` is non-empty, contains `:` or `@`,
and is a suffix of the original or a suffix of the original followed by `:latest`;
so the result is not empty and is strictly longer than the target. -/
theorem C21_RewriteImage_result_shape (original target : Str)
    (ho : original ≠ []) (ht : target ≠ []) :
    ∃ res r, registry.RewriteImage original target = some (res, none) ∧
      res = target ++ ['/'] ++ r ∧ r ≠ [] ∧ (':' ∈ r ∨ '@' ∈ r) ∧
      (r <:+ original ∨ ∃ suf, suf <:+ original ∧ r = suf ++ ":latest".toList) ∧
      res ≠ [] ∧ target.length < res.length := by
  obtain ⟨image, hs, hsuf⟩ := registry.stripRegistry_suffix original
  have hm := registry.defaultTag_marker image
  have hne : registry.defaultTag image ≠ [] := by
    intro h
    rw [h] at hm
    simp at hm
  refine ⟨_, registry.defaultTag image,
    registry.RewriteImage_of_strip original target image ho ht hs, rfl, hne, hm, ?_, ?_, ?_⟩
  · rw [registry.defaultTag_eq]
    by_cases h : ':' ∈ image ∨ '@' ∈ image
    · rw [if_pos h]
      exact Or.inl hsuf
    · rw [if_neg h]
      exact Or.inr ⟨image, hsuf, rfl⟩
  · simp
  · simp only [List.length_append, List.length_singleton]
    omega

/-- C21 at `docker.io/library/nginx` and the target `target-registry.com`. -/
theorem C21_RewriteImage_result_shape_witness :
    ("docker.io/library/nginx".toList ≠ [] ∧ "target-registry.com".toList ≠ []) ∧
    ∃ res r, registry.RewriteImage "docker.io/library/nginx".toList
          "target-registry.com".toList = some (res, none) ∧
      res = "target-registry.com".toList ++ ['/'] ++ r ∧ r ≠ [] ∧ (':' ∈ r ∨ '@' ∈ r) ∧
      (r <:+ "docker.io/library/nginx".toList ∨
        ∃ suf, suf <:+ "docker.io/library/nginx".toList ∧ r = suf ++ ":latest".toList) ∧
      res ≠ [] ∧ "target-registry.com".toList.length < res.length :=
  ⟨⟨by decide, by decide⟩,
   C21_RewriteImage_result_shape "docker.io/library/nginx".toList
     "target-registry.com".toList (by decide) (by decide)⟩

end MutatingRegistryHook
